import Mathlib

/-!
Verification of the graph-construction engine of AwsSecurityMapper.

This file shallowly embeds the graph-building core of the repository:

* `src/utils.py` — `format_ports`, `get_friendly_cidr_name` (together with the
  part of CPython 3.11's `ipaddress` module that `get_friendly_cidr_name`
  calls: `ip_network`, `is_private`, `is_global`);
* `src/visualizers/base.py` — `BaseVisualizer.clear`, `BaseVisualizer.build_graph`,
  `BaseVisualizer._process_permission`;
* `src/visualizers/matplotlib_visualizer.py` — `MatplotlibVisualizer.build_graph`
  and `._process_permission` (the Plotly visualizer's `_process_permission` is
  line-for-line the same algorithm and is covered by the same embedding);
* `src/graph_generator.py` — the legacy `GraphGenerator.build_graph`.

The mutable `networkx.DiGraph` is embedded as an association-list graph with
dictionary-update semantics for repeated node/edge insertion, matching
`DiGraph.add_node` / `DiGraph.add_edge` (insertion order preserved, attribute
dictionaries updated key-wise, `add_edge` inserting missing endpoints with an
empty attribute dictionary).  Attribute dictionaries are embedded as structures
of `Option` fields: `none` models an absent key.
-/

namespace AwsSecurityMapper

/-- Python dictionary-style optional field update: a provided (`some`) new value
overwrites, an absent (`none`) one keeps the old value. -/
def oUpd {α : Type} (new old : Option α) : Option α :=
  match new with
  | some x => some x
  | none => old

/-- Python truthiness of an optional string: `None` and the empty string are
falsy, every other string is truthy. -/
def pyTruthy : Option String → Bool
  | none => false
  | some s => s != ""

/-- Python `group_id == self.highlight_sg` where `highlight_sg : Optional[str]`:
comparing a string with `None` is `False`. -/
def eqHighlight (k : String) (hl : Option String) : Bool :=
  match hl with
  | some h => k == h
  | none => false

/-! ## Input data model

A security-group record as consumed by the builders (`sg` dictionaries of the
shape returned by AWS `describe_security_groups`).  Required key accesses in
the source (`sg["GroupId"]`) become plain fields; defaulted accesses
(`sg.get(key, default)`) become `Option` fields read through `Option.getD`. -/

/-- One entry of a permission's `UserIdGroupPairs` list. -/
structure GroupPair where
  groupId : Option String
  vpcId : Option String
deriving DecidableEq, Repr

/-- One entry of a permission's `IpRanges` list. -/
structure IpRange where
  cidrIp : Option String
deriving DecidableEq, Repr

/-- One entry of a record's `IpPermissions` list. -/
structure Permission where
  ipProtocol : Option String
  fromPort : Option Int
  toPort : Option Int
  userIdGroupPairs : Option (List GroupPair)
  ipRanges : Option (List IpRange)
deriving DecidableEq, Repr

/-- A security-group record.  `GroupId` is accessed with `sg["GroupId"]` in all
builders (a required key); the other fields are optional. -/
structure SecurityGroup where
  groupId : String
  groupName : Option String
  description : Option String
  vpcId : Option String
  ipPermissions : Option (List Permission)
deriving DecidableEq, Repr

/-! ## The graph (networkx `DiGraph` fragment) -/

/-- Attribute dictionary of a graph node.  The builders write the keys `name`,
`description`, `vpc_id`, `type` (here `ntype`, since `type` is reserved) and
`is_highlighted`; a key a given `add_node` call does not pass stays untouched
(`none` if never written). -/
structure NodeAttrs where
  name : Option String := none
  description : Option String := none
  vpc_id : Option String := none
  ntype : Option String := none
  is_highlighted : Option Bool := none
deriving DecidableEq, Repr

/-- Attribute dictionary of a graph edge.  `BaseVisualizer` and
`GraphGenerator` write `label`, `ports`, `is_cross_vpc`; the Matplotlib and
Plotly visualizers write `protocol`, `ports`, `direction`, `is_cross_vpc`. -/
structure EdgeAttrs where
  label : Option String := none
  ports : Option String := none
  is_cross_vpc : Option Bool := none
  protocol : Option String := none
  direction : Option String := none
deriving DecidableEq, Repr

/-- Key-wise dictionary update of node attributes (`dict.update`). -/
def NodeAttrs.update (old new : NodeAttrs) : NodeAttrs where
  name := oUpd new.name old.name
  description := oUpd new.description old.description
  vpc_id := oUpd new.vpc_id old.vpc_id
  ntype := oUpd new.ntype old.ntype
  is_highlighted := oUpd new.is_highlighted old.is_highlighted

/-- Key-wise dictionary update of edge attributes (`dict.update`). -/
def EdgeAttrs.update (old new : EdgeAttrs) : EdgeAttrs where
  label := oUpd new.label old.label
  ports := oUpd new.ports old.ports
  is_cross_vpc := oUpd new.is_cross_vpc old.is_cross_vpc
  protocol := oUpd new.protocol old.protocol
  direction := oUpd new.direction old.direction

/-- A directed graph with attribute dictionaries, in insertion order: the
fragment of `networkx.DiGraph` the builders use. -/
structure Graph where
  nodes : List (String × NodeAttrs)
  edges : List (String × String × EdgeAttrs)
deriving DecidableEq, Repr

/-- The empty graph (`nx.DiGraph()`, also the result of `graph.clear()`). -/
def Graph.empty : Graph := ⟨[], []⟩

/-- Node membership, `node_id in self.graph`. -/
def Graph.hasNode (g : Graph) (k : String) : Bool :=
  g.nodes.any (fun p => p.1 == k)

/-- Edge membership for an ordered pair of node keys. -/
def Graph.hasEdge (g : Graph) (u v : String) : Bool :=
  g.edges.any (fun e => e.1 == u && e.2.1 == v)

/-- Attribute dictionary of a node, if present. -/
def Graph.node? (g : Graph) (k : String) : Option NodeAttrs :=
  (g.nodes.find? (fun p => p.1 == k)).map Prod.snd

/-- Attribute dictionary of an edge, if present. -/
def Graph.edge? (g : Graph) (u v : String) : Option EdgeAttrs :=
  (g.edges.find? (fun e => e.1 == u && e.2.1 == v)).map (fun e => e.2.2)

/-- `DiGraph.add_node(k, **attrs)`: a new node is appended, an existing node
has its attribute dictionary updated with the passed keys. -/
def Graph.addNode (g : Graph) (k : String) (a : NodeAttrs) : Graph :=
  if g.hasNode k then
    { g with nodes := g.nodes.map (fun p => if p.1 == k then (p.1, p.2.update a) else p) }
  else
    { g with nodes := g.nodes ++ [(k, a)] }

/-- The empty node attribute dictionary (all keys absent). -/
def emptyAttrs : NodeAttrs := {}

/-- The node insertion `add_edge` performs on a missing endpoint: appended
with an empty attribute dictionary. -/
def Graph.ensureNode (g : Graph) (k : String) : Graph :=
  if g.hasNode k then g else { g with nodes := g.nodes ++ [(k, emptyAttrs)] }

/-- The in-place attribute update `add_edge` performs on an existing edge. -/
def updEdge (u v : String) (a : EdgeAttrs) (e : String × String × EdgeAttrs) :
    String × String × EdgeAttrs :=
  if e.1 == u && e.2.1 == v then (e.1, e.2.1, e.2.2.update a) else e

/-- `DiGraph.add_edge(u, v, **attrs)`: missing endpoints are inserted as nodes
with an empty attribute dictionary, then the edge is appended, or, if already
present, its attribute dictionary is updated with the passed keys. -/
def Graph.addEdge (g : Graph) (u v : String) (a : EdgeAttrs) : Graph :=
  let g2 := (g.ensureNode u).ensureNode v
  if g2.hasEdge u v then { g2 with edges := g2.edges.map (updEdge u v a) }
  else { g2 with edges := g2.edges ++ [(u, v, a)] }

/-! ## `src/utils.py`: `format_ports` -/

/-- Embedding of `utils.format_ports`: `str(from_port)` when the two ports are
equal, otherwise the f-string `"{from_port}-{to_port}"`. -/
def format_ports (fromPort toPort : Int) : String :=
  if fromPort == toPort then toString fromPort
  else toString fromPort ++ "-" ++ toString toPort

/-! ## CPython 3.11 `ipaddress` (the dependency of `get_friendly_cidr_name`)

`utils.get_friendly_cidr_name` calls `ipaddress.ip_network(cidr)` (with the
default `strict=True`) and reads `network.is_private` and `network.is_global`.
The relevant stdlib behaviour is embedded below: IPv4 and IPv6 textual network
parsing and the `is_private` / `is_global` classification of CPython 3.11's
`ipaddress` module. -/

/-- Splitting a character list at every occurrence of a separator character,
with Python `str.split(sep)` / Lean `String.splitOn` semantics: the empty list
yields one empty part, separators at the ends yield empty parts. -/
def splitCharList (sep : Char) : List Char → List (List Char)
  | [] => [[]]
  | x :: xs =>
    match splitCharList sep xs with
    | y :: ys => if x == sep then [] :: y :: ys else (x :: y) :: ys
    | [] => if x == sep then [[], []] else [[x]]

/-- Joining character lists with a separator character (re-assembling what a
Python `str.partition` keeps after the first separator). -/
def joinWithChar (sep : Char) : List (List Char) → List Char
  | [] => []
  | [x] => x
  | x :: xs => x ++ sep :: joinWithChar sep xs

/-- Value of a list of decimal digit characters. -/
def digitsVal (l : List Char) : Nat :=
  l.foldl (fun n c => n * 10 + (c.toNat - 48)) 0

/-- One dotted-quad octet, per `IPv4Address._parse_octet`: non-empty, ASCII
decimal digits only, at most 3 characters, no leading zero (except `"0"`
itself), value at most 255. -/
def parseOctet (l : List Char) : Option Nat :=
  if l.length == 0 then none
  else if !(l.all Char.isDigit) then none
  else if l.length > 3 then none
  else if l != ['0'] && l.headD ' ' == '0' then none
  else
    let n := digitsVal l
    if n > 255 then none else some n

/-- An IPv4 address (as a character list) as a 32-bit integer, per
`IPv4Address._ip_int_from_string`: exactly four octets separated by dots. -/
def parseIPv4AddrChars (l : List Char) : Option Nat :=
  match (splitCharList '.' l).mapM parseOctet with
  | some [a, b, c, d] => some (((a * 256 + b) * 256 + c) * 256 + d)
  | _ => none

/-- An IPv4 address string as a 32-bit integer. -/
def parseIPv4Addr (s : String) : Option Nat :=
  parseIPv4AddrChars s.data

/-- A prefix length given as a decimal digit list, per
`_prefix_from_prefix_string`: ASCII digits only (leading zeros allowed), value
at most `maxLen`. -/
def prefixLenFromDigits (maxLen : Nat) (l : List Char) : Option Nat :=
  if l.length != 0 && l.all Char.isDigit then
    let n := digitsVal l
    if n ≤ maxLen then some n else none
  else none

/-- The prefix length encoded by a 32-bit netmask integer (leading ones then
zeros), per `_prefix_from_ip_int`. -/
def prefixLenFromIpInt (ipInt : Nat) : Option Nat :=
  (List.range 33).find? (fun p => ipInt == 4294967296 - 2 ^ (32 - p))

/-- IPv4 netmask or hostmask in dotted-decimal form, per
`_prefix_from_ip_string`: parse as an address, read it as a netmask, and on
failure as a hostmask (its bitwise complement). -/
def prefixLenFromIpString (l : List Char) : Option Nat :=
  match parseIPv4AddrChars l with
  | none => none
  | some ip =>
    match prefixLenFromIpInt ip with
    | some p => some p
    | none => prefixLenFromIpInt (4294967295 - ip)

/-- `IPv4Network._make_netmask` on a string argument: a decimal prefix length,
or a dotted-decimal netmask/hostmask. -/
def makeNetmaskV4 (l : List Char) : Option Nat :=
  match prefixLenFromDigits 32 l with
  | some p => some p
  | none => prefixLenFromIpString l

/-- Hexadecimal digit value. -/
def hexVal (c : Char) : Nat :=
  if c.isDigit then c.toNat - 48
  else if 'a' ≤ c && c ≤ 'f' then c.toNat - 87
  else c.toNat - 55

/-- Is the character one of Python's `string.hexdigits`. -/
def isHexDigitChar (c : Char) : Bool :=
  c.isDigit || ('a' ≤ c && c ≤ 'f') || ('A' ≤ c && c ≤ 'F')

/-- One IPv6 hextet, per `IPv6Address._parse_hextet`: hex digits only, at most
4 characters, non-empty (`int('', 16)` raises). -/
def parseHextet (l : List Char) : Option Nat :=
  if !(l.all isHexDigitChar) then none
  else if l.length > 4 then none
  else if l.length == 0 then none
  else some (l.foldl (fun acc c => acc * 16 + hexVal c) 0)

/-- Lowercase hex rendering of a 16-bit value, as Python's `'%x' % n` (used
when an embedded IPv4 suffix is rewritten into two hextets). -/
def toHexChars (n : Nat) : List Char :=
  Nat.toDigits 16 n

/-- Splitting off an IPv6 zone identifier, per `IPv6Address._split_scope_id`:
at the first `%`; a present-but-empty zone or a second `%` is an error. -/
def splitScopeId (l : List Char) : Option (List Char) :=
  match splitCharList '%' l with
  | [a] => some a
  | [a, z] => if z.isEmpty then none else some a
  | _ => none

/-- Is the dot character contained in the part (Python `'.' in part`). -/
def containsDot (l : List Char) : Bool :=
  l.any (fun c => c == '.')

/-- Elaboration of the `::` gap: given the parts strictly between the
endpoints, the index (counted in `parts`) of the unique empty middle part, if
any; `none` when there is no gap, failure when there are two. -/
def findSkipIndex (parts : List (List Char)) : Option (Option Nat) :=
  let mids := (parts.drop 1).take (parts.length - 2)
  let idxs := (List.range mids.length).filter (fun i => mids.get? i == some [])
  match idxs with
  | [] => some none
  | [i] => some (some (i + 1))
  | _ => none

/-- Hextets of an IPv6 address (after scope removal), following
`IPv6Address._ip_int_from_string`: split on `:`, rewrite a dotted-quad last
part into two hextets, locate at most one `::` gap, check the part counts and
the endpoint rules, and parse each remaining part with `parseHextet`. -/
def parseIPv6Int (l : List Char) : Option Nat :=
  if l.isEmpty then none else
  let parts0 := splitCharList ':' l
  if parts0.length < 3 then none else
  let withV4 : Option (List (List Char)) :=
    match parts0.getLast? with
    | some last =>
      if containsDot last then
        match parseIPv4AddrChars last with
        | some v4 =>
          some (parts0.dropLast ++ [toHexChars (v4 / 65536), toHexChars (v4 % 65536)])
        | none => none
      else some parts0
    | none => none
  match withV4 with
  | none => none
  | some parts =>
    if parts.length > 9 then none else
    match findSkipIndex parts with
    | none => none
    | some (some skip) =>
      let hi0 := skip
      let lo0 := parts.length - skip - 1
      let headEmpty := (parts.headD ['x']).isEmpty
      let lastEmpty := (parts.getLastD ['x']).isEmpty
      let hi := if headEmpty then hi0 - 1 else hi0
      let lo := if lastEmpty then lo0 - 1 else lo0
      if headEmpty && hi != 0 then none
      else if lastEmpty && lo != 0 then none
      else if hi + lo > 7 then none
      else
        let hiParts := parts.take hi
        let loParts := parts.drop (parts.length - lo)
        match hiParts.mapM parseHextet, loParts.mapM parseHextet with
        | some hs, some ls =>
          let hiInt := hs.foldl (fun acc h => acc * 65536 + h) 0
          let loInt := ls.foldl (fun acc h => acc * 65536 + h) 0
          some (hiInt * 65536 ^ (8 - hi) + loInt)
        | _, _ => none
    | some none =>
      if parts.length != 8 then none
      else if (parts.headD ['x']).isEmpty then none
      else if (parts.getLastD ['x']).isEmpty then none
      else
        match parts.mapM parseHextet with
        | some hs => some (hs.foldl (fun acc h => acc * 65536 + h) 0)
        | none => none

/-- An IPv6 address (as a character list) as a 128-bit integer
(`IPv6Address`), including zone-identifier handling. -/
def parseIPv6Addr (l : List Char) : Option Nat :=
  match splitScopeId l with
  | some addr => parseIPv6Int addr
  | none => none

/-- A parsed IP network: protocol version flag, network address as an integer
and prefix length. -/
structure IPNet where
  isV6 : Bool
  addr : Nat
  plen : Nat
deriving DecidableEq, Repr

/-- Number of address bits of the network's protocol version. -/
def IPNet.bits (n : IPNet) : Nat := if n.isV6 then 128 else 32

/-- Splitting a network string into address and prefix parts, per
`_split_addr_prefix` (`str.partition('/')`; a missing `/` means the maximal
prefix length). -/
def splitAddrAndMask (maxLen : Nat) (l : List Char) : List Char × List Char :=
  match splitCharList '/' l with
  | [a] => (a, (toString maxLen).data)
  | a :: rest => (a, joinWithChar '/' rest)
  | [] => ([], (toString maxLen).data)

/-- `ipaddress.IPv4Network(s, strict=True)`: parse address and netmask, and
reject host bits set below the prefix. -/
def ipv4Network (s : String) : Option IPNet :=
  let am := splitAddrAndMask 32 s.data
  match parseIPv4AddrChars am.1, makeNetmaskV4 am.2 with
  | some ip, some p =>
    if ip % 2 ^ (32 - p) == 0 then some ⟨false, ip, p⟩ else none
  | _, _ => none

/-- `ipaddress.IPv6Network(s, strict=True)`: the IPv6 netmask may only be a
decimal prefix length. -/
def ipv6Network (s : String) : Option IPNet :=
  let am := splitAddrAndMask 128 s.data
  match parseIPv6Addr am.1, prefixLenFromDigits 128 am.2 with
  | some ip, some p =>
    if ip % 2 ^ (128 - p) == 0 then some ⟨true, ip, p⟩ else none
  | _, _ => none

/-- `ipaddress.ip_network(s)`: try IPv4, then IPv6. -/
def ip_network (s : String) : Option IPNet :=
  match ipv4Network s with
  | some n => some n
  | none => ipv6Network s

/-- Membership of an address integer in a constant network, given as
(network-address, prefix-length) over `bits` address bits. -/
def addrInNet (bits : Nat) (a : Nat) (net : Nat × Nat) : Bool :=
  a / 2 ^ (bits - net.2) == net.1 / 2 ^ (bits - net.2)

/-- A constant network from its textual form (used only to transcribe the
stdlib's constant tables). -/
def mkNetPair (s : String) : Nat × Nat :=
  match ip_network s with
  | some n => (n.addr, n.plen)
  | none => (0, 0)

/-- `_IPv4Constants._private_networks` of CPython 3.11. -/
def privateNetworksV4 : List (Nat × Nat) :=
  ["0.0.0.0/8", "10.0.0.0/8", "127.0.0.0/8", "169.254.0.0/16", "172.16.0.0/12",
   "192.0.0.0/29", "192.0.0.170/31", "192.0.2.0/24", "192.168.0.0/16",
   "198.18.0.0/15", "198.51.100.0/24", "203.0.113.0/24", "240.0.0.0/4",
   "255.255.255.255/32"].map mkNetPair

/-- `_IPv6Constants._private_networks` of CPython 3.11. -/
def privateNetworksV6 : List (Nat × Nat) :=
  ["::1/128", "::/128", "::ffff:0:0/96", "100::/64", "2001::/23", "2001:2::/48",
   "2001:db8::/32", "2001:10::/28", "fc00::/7", "fe80::/10"].map mkNetPair

/-- The broadcast address of a network (its highest address). -/
def IPNet.bcast (n : IPNet) : Nat := n.addr + 2 ^ (n.bits - n.plen) - 1

/-- `_BaseNetwork.is_private`: some private constant network contains both the
network address and the broadcast address. -/
def IPNet.is_private (n : IPNet) : Bool :=
  let nets := if n.isV6 then privateNetworksV6 else privateNetworksV4
  nets.any (fun priv => addrInNet n.bits n.addr priv && addrInNet n.bits n.bcast priv)

/-- `IPv4Network('100.64.0.0/10')`, the shared address space excluded from
`IPv4Network.is_global`. -/
def sharedSpaceV4 : Nat × Nat := mkNetPair "100.64.0.0/10"

/-- `is_global` of networks: for IPv4, not inside 100.64.0.0/10 and not
private (`IPv4Network.is_global`); for IPv6, not private
(`_BaseNetwork.is_global`). -/
def IPNet.is_global (n : IPNet) : Bool :=
  if n.isV6 then !n.is_private
  else
    !(addrInNet 32 n.addr sharedSpaceV4 && addrInNet 32 n.bcast sharedSpaceV4)
      && !n.is_private

/-! ## `src/utils.py`: `get_friendly_cidr_name`

The configured mapping `config.common_cidrs` comes from a `config.yaml` that is
not part of the source tree, so the mapping is passed as an explicit
association-list parameter `cfg` (the Python dict lookup `cidr in common_cidrs`
/ `common_cidrs[cidr]`). -/

/-- Dictionary lookup in the configured common-CIDR mapping. -/
def lookupCidr (cfg : List (String × String)) (c : String) : Option String :=
  (cfg.find? (fun p => p.1 == c)).map Prod.snd

/-- Embedding of `utils.get_friendly_cidr_name`: the configured friendly name
when the string is a key of `common_cidrs`; otherwise parse with
`ip_network` and return the private / global rendering, falling through to the
input itself when the network is neither, or when parsing raises. -/
def get_friendly_cidr_name (cfg : List (String × String)) (cidr : String) : String :=
  match lookupCidr cfg cidr with
  | some fname => fname ++ " (" ++ cidr ++ ")"
  | none =>
    match ip_network cidr with
    | some network =>
      if network.is_private then "Private Network (" ++ cidr ++ ")"
      else if network.is_global then "Public Network (" ++ cidr ++ ")"
      else cidr
    | none => cidr

/-! ## `src/visualizers/base.py`: `BaseVisualizer`

`clear` resets the graph and the remembered highlight id; `build_graph` clears,
stores the highlight id, inserts one node per record and processes each
record's inbound rules through `_process_permission`. -/

/-- The mutable state of a `BaseVisualizer`: its graph and highlight id. -/
structure VisualizerState where
  graph : Graph
  highlight_sg : Option String
deriving DecidableEq, Repr

/-- A freshly constructed visualizer (`BaseVisualizer.__init__`). -/
def VisualizerState.init : VisualizerState := ⟨Graph.empty, none⟩

/-- `BaseVisualizer.clear`: empty the graph and forget the highlight id. -/
def VisualizerState.clear (_ : VisualizerState) : VisualizerState :=
  ⟨Graph.empty, none⟩

/-- Node attributes written for a security-group record's own node in
`BaseVisualizer.build_graph`. -/
def recordAttrs (groupId groupName description vpcId : String)
    (hl : Option String) : NodeAttrs where
  name := some groupName
  description := some description
  vpc_id := some vpcId
  ntype := some "security_group"
  is_highlighted := some (eqHighlight groupId hl)

/-- Node attributes synthesized for a referenced-but-absent security group in
`BaseVisualizer._process_permission`. -/
def placeholderAttrs (sourceId sourceVpc : String) (hl : Option String) : NodeAttrs where
  name := some ("Security Group " ++ sourceId)
  description := some "Referenced Security Group"
  vpc_id := some sourceVpc
  ntype := some "security_group"
  is_highlighted := some (eqHighlight sourceId hl)

/-- Edge attributes written for a group-reference edge in
`BaseVisualizer._process_permission`: the label `f"{protocol}:{format_ports(...)}"`,
the raw port pair, and `is_cross_vpc = source_vpc not in (vpc_id, "Unknown VPC")`. -/
def sgEdgeAttrs (protocol : String) (fromPort toPort : Int)
    (sourceVpc vpcId : String) : EdgeAttrs where
  label := some (protocol ++ ":" ++ format_ports fromPort toPort)
  ports := some (toString fromPort ++ "-" ++ toString toPort)
  is_cross_vpc := some (!(sourceVpc == vpcId || sourceVpc == "Unknown VPC"))

/-- Edge attributes written for a CIDR edge in
`BaseVisualizer._process_permission`: always `is_cross_vpc=False`. -/
def cidrEdgeAttrs (protocol : String) (fromPort toPort : Int) : EdgeAttrs where
  label := some (protocol ++ ":" ++ format_ports fromPort toPort)
  ports := some (toString fromPort ++ "-" ++ toString toPort)
  is_cross_vpc := some false

/-- Node attributes written for a CIDR node (`name` and `type` only). -/
def cidrNodeAttrs (friendlyName : String) : NodeAttrs where
  name := some friendlyName
  ntype := some "cidr"

/-- One `UserIdGroupPairs` entry of `BaseVisualizer._process_permission`: skip
falsy ids; otherwise synthesize the placeholder node when the id is not yet in
the graph, and add the reference edge. -/
def processGroupPair (hl : Option String) (protocol : String) (fromPort toPort : Int)
    (targetGroupId vpcId : String) (g : Graph) (gp : GroupPair) : Graph :=
  let sourceVpc := gp.vpcId.getD "Unknown VPC"
  if pyTruthy gp.groupId then
    let sourceId := gp.groupId.getD ""
    let g1 := if g.hasNode sourceId then g
      else g.addNode sourceId (placeholderAttrs sourceId sourceVpc hl)
    g1.addEdge sourceId targetGroupId (sgEdgeAttrs protocol fromPort toPort sourceVpc vpcId)
  else g

/-- One `IpRanges` entry of `BaseVisualizer._process_permission`: skip falsy
CIDR strings; otherwise insert the CIDR node (keyed by its friendly name) and
the CIDR edge. -/
def processIpRange (cfg : List (String × String)) (protocol : String)
    (fromPort toPort : Int) (targetGroupId : String) (g : Graph) (r : IpRange) : Graph :=
  if pyTruthy r.cidrIp then
    let cidr := r.cidrIp.getD ""
    let friendlyName := get_friendly_cidr_name cfg cidr
    let cidrNode := "CIDR: " ++ friendlyName
    let g1 := g.addNode cidrNode (cidrNodeAttrs friendlyName)
    g1.addEdge cidrNode targetGroupId (cidrEdgeAttrs protocol fromPort toPort)
  else g

/-- `BaseVisualizer._process_permission`: default the ports to -1 and the
protocol to "-1", then process the group references and the CIDR ranges. -/
def processPermission (cfg : List (String × String)) (hl : Option String)
    (targetGroupId vpcId : String) (g : Graph) (p : Permission) : Graph :=
  let fromPort := p.fromPort.getD (-1)
  let toPort := p.toPort.getD (-1)
  let protocol := p.ipProtocol.getD "-1"
  let g1 := (p.userIdGroupPairs.getD []).foldl
    (processGroupPair hl protocol fromPort toPort targetGroupId vpcId) g
  (p.ipRanges.getD []).foldl
    (processIpRange cfg protocol fromPort toPort targetGroupId) g1

/-- One record of `BaseVisualizer.build_graph`: insert the record's node (with
the documented defaults for missing fields) and process its permissions. -/
def processRecord (cfg : List (String × String)) (hl : Option String)
    (g : Graph) (sg : SecurityGroup) : Graph :=
  let groupId := sg.groupId
  let groupName := sg.groupName.getD "Unknown"
  let description := sg.description.getD ""
  let vpcId := sg.vpcId.getD "Unknown VPC"
  let g1 := g.addNode groupId (recordAttrs groupId groupName description vpcId hl)
  (sg.ipPermissions.getD []).foldl (processPermission cfg hl groupId vpcId) g1

/-- `BaseVisualizer.build_graph`: clear, remember the highlight id, then fold
over the supplied records. -/
def build_graph (cfg : List (String × String)) (s : VisualizerState)
    (security_groups : List SecurityGroup) (hl : Option String) : VisualizerState :=
  let s1 := s.clear
  let s2 := { s1 with highlight_sg := hl }
  { s2 with graph := security_groups.foldl (processRecord cfg hl) s2.graph }

/-! ## `src/graph_generator.py`: the legacy `GraphGenerator`

Its `build_graph` runs the same node/edge construction inline, with three
differences to `BaseVisualizer.build_graph`: it does not clear the existing
graph first, it has no highlight parameter, and its node attribute
dictionaries carry no `is_highlighted` key. -/

/-- Record node attributes written by `GraphGenerator.build_graph`. -/
def ggRecordAttrs (groupName description vpcId : String) : NodeAttrs where
  name := some groupName
  description := some description
  vpc_id := some vpcId
  ntype := some "security_group"

/-- Placeholder node attributes written by `GraphGenerator.build_graph`. -/
def ggPlaceholderAttrs (targetId targetVpc : String) : NodeAttrs where
  name := some ("Security Group " ++ targetId)
  description := some "Referenced Security Group"
  vpc_id := some targetVpc
  ntype := some "security_group"

/-- One `UserIdGroupPairs` entry of `GraphGenerator.build_graph`
(`is_cross_vpc = vpc_id != target_vpc and target_vpc != 'Unknown VPC'`, the
same truth condition as the base visualizer's). -/
def ggProcessGroupPair (protocol : String) (fromPort toPort : Int)
    (groupId vpcId : String) (g : Graph) (gp : GroupPair) : Graph :=
  let targetVpc := gp.vpcId.getD "Unknown VPC"
  if pyTruthy gp.groupId then
    let targetId := gp.groupId.getD ""
    let g1 := if g.hasNode targetId then g
      else g.addNode targetId (ggPlaceholderAttrs targetId targetVpc)
    let cross := !(vpcId == targetVpc) && !(targetVpc == "Unknown VPC")
    g1.addEdge targetId groupId
      { label := some (protocol ++ ":" ++ format_ports fromPort toPort)
        ports := some (toString fromPort ++ "-" ++ toString toPort)
        is_cross_vpc := some cross }
  else g

/-- One permission of `GraphGenerator.build_graph` (the `IpRanges` handling is
identical to the base visualizer's `processIpRange`). -/
def ggProcessPermission (cfg : List (String × String)) (groupId vpcId : String)
    (g : Graph) (p : Permission) : Graph :=
  let fromPort := p.fromPort.getD (-1)
  let toPort := p.toPort.getD (-1)
  let protocol := p.ipProtocol.getD "-1"
  let g1 := (p.userIdGroupPairs.getD []).foldl
    (ggProcessGroupPair protocol fromPort toPort groupId vpcId) g
  (p.ipRanges.getD []).foldl
    (processIpRange cfg protocol fromPort toPort groupId) g1

/-- One record of `GraphGenerator.build_graph`. -/
def ggProcessRecord (cfg : List (String × String)) (g : Graph)
    (sg : SecurityGroup) : Graph :=
  let groupId := sg.groupId
  let groupName := sg.groupName.getD "Unknown"
  let description := sg.description.getD ""
  let vpcId := sg.vpcId.getD "Unknown VPC"
  let g1 := g.addNode groupId (ggRecordAttrs groupName description vpcId)
  (sg.ipPermissions.getD []).foldl (ggProcessPermission cfg groupId vpcId) g1

/-- `GraphGenerator.build_graph`: fold the records over the EXISTING graph —
unlike the base visualizer it never clears. -/
def ggBuildGraph (cfg : List (String × String)) (g : Graph)
    (security_groups : List SecurityGroup) : Graph :=
  security_groups.foldl (ggProcessRecord cfg) g

/-! ## `src/visualizers/matplotlib_visualizer.py`: `MatplotlibVisualizer`

Its `build_graph`/`_process_permission` differ from the base class in the edge
attributes (`protocol`, `ports`, `direction`, `is_cross_vpc` instead of a
prebuilt `label`), in mapping the protocol string "-1" to "All" before storing
it, and in guarding the CIDR node insertion by membership.
`PlotlyVisualizer._process_permission` (src/visualizers/plotly_visualizer.py)
performs exactly the same steps and is covered by this embedding as well. -/

/-- The protocol rewriting of the Matplotlib/Plotly `_process_permission`:
`if protocol == '-1': protocol = 'All'`. -/
def mplDisplayProtocol (protocol : String) : String :=
  if protocol == "-1" then "All" else protocol

/-- Edge attributes stored by the Matplotlib/Plotly `_process_permission` for
a group-reference edge. -/
def mplSgEdgeAttrs (protocol portInfo direction : String)
    (sourceVpc vpcId : String) : EdgeAttrs where
  protocol := some protocol
  ports := some portInfo
  direction := some direction
  is_cross_vpc := some (!(vpcId == sourceVpc) && !(sourceVpc == "Unknown VPC"))

/-- Edge attributes stored by the Matplotlib/Plotly `_process_permission` for
a CIDR edge. -/
def mplCidrEdgeAttrs (protocol portInfo direction : String) : EdgeAttrs where
  protocol := some protocol
  ports := some portInfo
  direction := some direction
  is_cross_vpc := some false

/-- One `UserIdGroupPairs` entry of the Matplotlib/Plotly
`_process_permission`. -/
def mplProcessGroupPair (hl : Option String) (protocol portInfo direction : String)
    (targetGroupId vpcId : String) (g : Graph) (gp : GroupPair) : Graph :=
  let sourceVpc := gp.vpcId.getD "Unknown VPC"
  if pyTruthy gp.groupId then
    let sourceId := gp.groupId.getD ""
    let g1 := if g.hasNode sourceId then g
      else g.addNode sourceId (placeholderAttrs sourceId sourceVpc hl)
    g1.addEdge sourceId targetGroupId (mplSgEdgeAttrs protocol portInfo direction sourceVpc vpcId)
  else g

/-- One `IpRanges` entry of the Matplotlib/Plotly `_process_permission` (the
CIDR node is only inserted when absent). -/
def mplProcessIpRange (cfg : List (String × String)) (protocol portInfo direction : String)
    (targetGroupId : String) (g : Graph) (r : IpRange) : Graph :=
  if pyTruthy r.cidrIp then
    let cidr := r.cidrIp.getD ""
    let friendlyName := get_friendly_cidr_name cfg cidr
    let cidrNode := "CIDR: " ++ friendlyName
    let g1 := if g.hasNode cidrNode then g else g.addNode cidrNode (cidrNodeAttrs friendlyName)
    g1.addEdge cidrNode targetGroupId (mplCidrEdgeAttrs protocol portInfo direction)
  else g

/-- `MatplotlibVisualizer._process_permission` (and, identically,
`PlotlyVisualizer._process_permission`). -/
def mplProcessPermission (cfg : List (String × String)) (hl : Option String)
    (direction targetGroupId vpcId : String) (g : Graph) (p : Permission) : Graph :=
  let protocol0 := p.ipProtocol.getD "-1"
  let fromPort := p.fromPort.getD (-1)
  let toPort := p.toPort.getD (-1)
  let portInfo := format_ports fromPort toPort
  let protocol := mplDisplayProtocol protocol0
  let g1 := (p.userIdGroupPairs.getD []).foldl
    (mplProcessGroupPair hl protocol portInfo direction targetGroupId vpcId) g
  (p.ipRanges.getD []).foldl
    (mplProcessIpRange cfg protocol portInfo direction targetGroupId) g1

/-- One record of `MatplotlibVisualizer.build_graph` (permissions processed
with direction `"INGRESS"`). -/
def mplProcessRecord (cfg : List (String × String)) (hl : Option String)
    (g : Graph) (sg : SecurityGroup) : Graph :=
  let groupId := sg.groupId
  let groupName := sg.groupName.getD "Unknown"
  let description := sg.description.getD ""
  let vpcId := sg.vpcId.getD "Unknown VPC"
  let g1 := g.addNode groupId (recordAttrs groupId groupName description vpcId hl)
  (sg.ipPermissions.getD []).foldl (mplProcessPermission cfg hl "INGRESS" groupId vpcId) g1

/-- `MatplotlibVisualizer.build_graph` (and, identically,
`PlotlyVisualizer.build_graph`): clear, remember the highlight id, fold. -/
def mplBuildGraph (cfg : List (String × String)) (s : VisualizerState)
    (security_groups : List SecurityGroup) (hl : Option String) : VisualizerState :=
  let s1 := s.clear
  let s2 := { s1 with highlight_sg := hl }
  { s2 with graph := security_groups.foldl (mplProcessRecord cfg hl) s2.graph }

/-! ## Derived notions used by the statements -/

/-- Is the string an address-block node key, i.e. of the form
`"CIDR: " ++ label` (the key shape produced for every CIDR node)? -/
def cidrPrefixed (s : String) : Bool :=
  List.isPrefixOf "CIDR: ".data s.data

/-- Does some group reference of the input carry an id that lies in the
address-block key space `"CIDR: …"`?  (Absent ids count as `""`, which does
not.)  Such collisions are the one way a group-reference edge can end up
hanging off an address-block node. -/
def hasCidrRefId (sgs : List SecurityGroup) : Bool :=
  sgs.any (fun sg => (sg.ipPermissions.getD []).any (fun p =>
    (p.userIdGroupPairs.getD []).any (fun gp => cidrPrefixed (gp.groupId.getD ""))))

/-- Node attributes with the `is_highlighted` rendering hint removed (used to
compare graph topology across different highlight ids). -/
def NodeAttrs.stripHl (a : NodeAttrs) : NodeAttrs :=
  { a with is_highlighted := none }

/-- A node entry with the `is_highlighted` rendering hint removed. -/
def stripHlEntry (p : String × NodeAttrs) : String × NodeAttrs :=
  (p.1, p.2.stripHl)

/-- Safety of address-block edges: every edge leaving a node in the
address-block key space carries `is_cross_vpc = False`, and every node typed
`"cidr"` lies in the address-block key space.  This is the invariant behind
the claim that address-block edges are never cross-boundary; it survives the
build exactly when no group reference collides with an address-block key. -/
def cidrEdgesSafe (g : Graph) : Prop :=
  (∀ e ∈ g.edges, cidrPrefixed e.1 = true → e.2.2.is_cross_vpc = some false)
  ∧ (∀ p ∈ g.nodes, p.2.ntype = some "cidr" → cidrPrefixed p.1 = true)

/-- Consistency of the highlight hints with a highlight id `hl`: every node
either carries no `is_highlighted` key or carries exactly
`key == highlight_sg`.  This holds of every graph the base builder produces
and pins the highlight to at most one key. -/
def highlightConsistent (hl : Option String) (g : Graph) : Prop :=
  ∀ p ∈ g.nodes,
    p.2.is_highlighted = none ∨ p.2.is_highlighted = some (eqHighlight p.1 hl)

/-- The CIDR-naming policy in the words of the specification, amended by the
case the specification omits: (1) a string that is a key of the configured
mapping yields the mapped name with the CIDR appended in parentheses; (2) a
string that parses as a valid address block yields the private or the
globally-routable rendering, and is returned unchanged when the parsed block
is neither private nor global (the omitted case, e.g. the IPv4 shared address
space 100.64.0.0/10); (3) a string that fails to parse is returned
unchanged. -/
def friendlyNameSpec (cfg : List (String × String)) (cidr : String) : String :=
  match lookupCidr cfg cidr with
  | some mapped => mapped ++ " (" ++ cidr ++ ")"
  | none =>
    match ip_network cidr with
    | none => cidr
    | some block =>
      if block.is_private then "Private Network (" ++ cidr ++ ")"
      else if block.is_global then "Public Network (" ++ cidr ++ ")"
      else cidr

/-! ## Concrete inputs used by counterexamples and witnesses -/

/-- The configured mapping used by concrete examples: the spec's
`"0.0.0.0/0" → "Internet"`. -/
def cfgEx : List (String × String) := [("0.0.0.0/0", "Internet")]

/-- The spec's placeholder-synthesis example: record `sg-A` in `vpc-1` whose
permission references the absent `sg-B` in `vpc-2` (tcp port 443). -/
def recA : SecurityGroup :=
  ⟨"sg-A", some "web", some "frontend", some "vpc-1",
    some [⟨some "tcp", some 443, some 443, some [⟨some "sg-B", some "vpc-2"⟩], some []⟩]⟩

/-- A record whose second permission's group reference re-uses the
address-block node key created by its first permission's CIDR rule: the string
`"foo"` neither matches the mapping nor parses, so its friendly name is
`"foo"` and the CIDR node key is `"CIDR: foo"`. -/
def recCollide : SecurityGroup :=
  ⟨"sg-A", none, none, some "vpc-1",
    some [⟨some "tcp", some 443, some 443, some [], some [⟨some "foo"⟩]⟩,
          ⟨some "tcp", some 443, some 443, some [⟨some "CIDR: foo", some "vpc-2"⟩], some []⟩]⟩

/-- Two records (in two containers) each allowing `0.0.0.0/0`: the CIDR
collapsing example. -/
def recsCidrPair : List SecurityGroup :=
  [⟨"sg-1", some "web", some "", some "vpc-1",
     some [⟨some "tcp", some 443, some 443, some [], some [⟨some "0.0.0.0/0"⟩]⟩]⟩,
   ⟨"sg-2", some "db", some "", some "vpc-2",
     some [⟨some "tcp", some 22, some 22, some [], some [⟨some "0.0.0.0/0"⟩]⟩]⟩]

/-- Two records with the same id and different attributes: the last-write-wins
example. -/
def recsDupId : List SecurityGroup :=
  [⟨"sg-1", some "first", some "a", some "vpc-1", some []⟩,
   ⟨"sg-1", some "second", some "b", some "vpc-2", some []⟩]

/-- A plain record with no permissions, used as build input `A`. -/
def recPlainA : SecurityGroup := ⟨"sg-A", some "a", some "", some "vpc-1", some []⟩

/-- A plain record with no permissions, used as build input `B`. -/
def recPlainB : SecurityGroup := ⟨"sg-B", some "b", some "", some "vpc-2", some []⟩

/-- A record whose permission has protocol `"-1"` and a same-container group
reference, used for the protocol-display examples. -/
def recProtoAll : SecurityGroup :=
  ⟨"sg-A", some "web", some "", some "vpc-1",
    some [⟨some "-1", some 443, some 443, some [⟨some "sg-B", some "vpc-1"⟩], some []⟩]⟩

/-- A permission with protocol `"-1"`, port 443 and one same-container group
reference, used for the protocol-display witnesses. -/
def permC5 : Permission :=
  ⟨some "-1", some 443, some 443, some [⟨some "sg-B", some "vpc-1"⟩], some []⟩

/-- A permission mixing falsy and truthy group references and CIDR ranges,
used for the skip-invalid examples: only `sg-B` and `10.0.0.0/8` count. -/
def permMixed : Permission :=
  ⟨some "tcp", some 22, some 22,
    some [⟨none, some "vpc-2"⟩, ⟨some "", some "vpc-2"⟩, ⟨some "sg-B", some "vpc-2"⟩],
    some [⟨none⟩, ⟨some ""⟩, ⟨some "10.0.0.0/8"⟩]⟩

/-! ## Generic list lemmas -/

/-- A fold preserves any invariant its step preserves. -/
theorem foldl_preserves {α β : Type} (P : α → Prop) (f : α → β → α)
    (h : ∀ a b, P a → P (f a b)) :
    ∀ (l : List β) (a : α), P a → P (l.foldl f a) := by
  intro l
  induction l with
  | nil => exact fun a ha => ha
  | cons x xs ih => exact fun a ha => ih _ (h a x ha)

/-- A fold whose step ignores elements failing `q` equals the fold over the
`q`-filtered list. -/
theorem foldl_eq_foldl_filter {α β : Type} (f : α → β → α) (q : β → Bool)
    (h : ∀ a b, q b = false → f a b = a) :
    ∀ (l : List β) (a : α), l.foldl f a = (l.filter q).foldl f a := by
  intro l
  induction l with
  | nil => intro a; rfl
  | cons x xs ih =>
    intro a
    by_cases hx : q x = true
    · rw [List.filter_cons_of_pos hx]
      exact ih (f a x)
    · have hx' : q x = false := by simpa using hx
      rw [List.filter_cons_of_neg (by simp [hx']), List.foldl_cons, h a x hx']
      exact ih a

/-- Two folds over the same list preserve a binary relation their steps
preserve. -/
theorem foldl_rel {α β : Type} (R : α → α → Prop) (f fO : α → β → α)
    (h : ∀ a aO b, R a aO → R (f a b) (fO aO b)) :
    ∀ (l : List β) (a aO : α), R a aO → R (l.foldl f a) (l.foldl fO aO) := by
  intro l
  induction l with
  | nil => exact fun a aO ha => ha
  | cons x xs ih => exact fun a aO ha => ih _ _ (h a aO x ha)

/-! ## Claim C8 — `format_ports` -/

/-- Claim C8: for every pair of integers, `format_ports` returns `str(from)`
when the ports coincide and `"{from}-{to}"` otherwise; it is a pure total
function, and `format_ports (-1) (-1) = "-1"` (together with the spec's two
round-trip examples). -/
theorem C8_format_ports :
    (∀ fromPort : Int, format_ports fromPort fromPort = toString fromPort)
    ∧ (∀ fromPort toPort : Int, fromPort ≠ toPort →
        format_ports fromPort toPort = toString fromPort ++ "-" ++ toString toPort)
    ∧ format_ports (-1) (-1) = "-1"
    ∧ format_ports 443 443 = "443"
    ∧ format_ports 1024 65535 = "1024-65535" := by
  refine ⟨fun f => ?_, fun f t h => ?_, by decide, by decide, by decide⟩
  · simp [format_ports]
  · simp [format_ports, h]

/-- Witness for C8 at a concrete unequal pair. -/
theorem C8_format_ports_witness :
    (1 : Int) ≠ 2 ∧ format_ports 1 2 = "1-2" :=
  ⟨by decide, C8_format_ports.2.1 1 2 (by decide)⟩

/-! ## Claim C7 — totality of `build_graph` with documented defaults -/

/-- Claim C7: `build_graph` is total as long as each record carries an id: an
empty record list builds the empty graph, a record with every optional field
absent builds a single node carrying the documented defaults (name
`"Unknown"`, empty description, container `"Unknown VPC"`) and no edges, and a
permission with every optional field absent contributes nothing. -/
theorem C7_total_with_defaults :
    (∀ cfg hl, (build_graph cfg VisualizerState.init [] hl).graph = Graph.empty)
    ∧ (∀ cfg hl gid,
        build_graph cfg VisualizerState.init [⟨gid, none, none, none, none⟩] hl
          = ⟨⟨[(gid, recordAttrs gid "Unknown" "" "Unknown VPC" hl)], []⟩, hl⟩)
    ∧ (∀ cfg hl tgt vpc g,
        processPermission cfg hl tgt vpc g ⟨none, none, none, none, none⟩ = g) :=
  ⟨fun _ _ => rfl, fun _ _ _ => rfl, fun _ _ _ _ _ => rfl⟩

/-! ## Claim C4 — build resets prior state -/

/-- Counterexample to claim C4 as stated: the legacy
`GraphGenerator.build_graph` (src/graph_generator.py) never clears, so
building `[recPlainA]` and then `[recPlainB]` on the same instance leaves
`sg-A` in the graph, which building `[recPlainB]` alone does not contain. -/
theorem C4_counterexample :
    (ggBuildGraph cfgEx (ggBuildGraph cfgEx Graph.empty [recPlainA]) [recPlainB]).hasNode "sg-A"
        = true
    ∧ (ggBuildGraph cfgEx Graph.empty [recPlainB]).hasNode "sg-A" = false := by
  constructor <;> decide

/-- Claim C4 (amended to the visualizer builders): every call to
`BaseVisualizer.build_graph` — and to the Matplotlib/Plotly subclass version —
first resets all prior state, so its result is independent of the prior state,
and building `A` then `B` on one visualizer equals building `B` alone on a
fresh instance. -/
theorem C4_build_resets :
    (∀ cfg s1 s2 sgs hl, build_graph cfg s1 sgs hl = build_graph cfg s2 sgs hl)
    ∧ (∀ cfg s hlA sgsA sgsB hlB,
        build_graph cfg (build_graph cfg s sgsA hlA) sgsB hlB
          = build_graph cfg VisualizerState.init sgsB hlB)
    ∧ (∀ cfg s1 s2 sgs hl, mplBuildGraph cfg s1 sgs hl = mplBuildGraph cfg s2 sgs hl) :=
  ⟨fun _ _ _ _ _ => rfl, fun _ _ _ _ _ _ => rfl, fun _ _ _ _ _ => rfl⟩

/-! ## Claim C6 — the CIDR namer -/

/-- Counterexample to claim C6 as stated: `"100.64.0.0/10"` (the IPv4 shared
address space) parses as a valid address block but is classified neither
private nor global by the `ipaddress` module, so `get_friendly_cidr_name`
returns the input unchanged instead of one of the two renderings the claim
requires for every parseable input. -/
theorem C6_counterexample :
    get_friendly_cidr_name [] "100.64.0.0/10" = "100.64.0.0/10"
    ∧ (ip_network "100.64.0.0/10").isSome = true
    ∧ get_friendly_cidr_name [] "100.64.0.0/10" ≠ "Private Network (100.64.0.0/10)"
    ∧ get_friendly_cidr_name [] "100.64.0.0/10" ≠ "Public Network (100.64.0.0/10)" := by
  refine ⟨by decide, by decide, by decide, by decide⟩

/-- Claim C6 (amended by the omitted case): the namer is total and follows the
precedence mapped-name, then parse-and-classify — private first, then globally
routable, then (the omitted case) pass-through — then pass-through on parse
failure; `friendlyNameSpec` spells out that policy and agrees with the code on
every input, and the spec's concrete mapped/pass-through examples hold. -/
theorem C6_friendly_name :
    (∀ cfg cidr, get_friendly_cidr_name cfg cidr = friendlyNameSpec cfg cidr)
    ∧ get_friendly_cidr_name [("10.0.0.0/8", "Internal Network (Class A)")] "10.0.0.0/8"
        = "Internal Network (Class A) (10.0.0.0/8)"
    ∧ get_friendly_cidr_name [] "not-a-cidr" = "not-a-cidr"
    ∧ get_friendly_cidr_name [] "192.168.1.0/24" = "Private Network (192.168.1.0/24)"
    ∧ get_friendly_cidr_name [] "8.8.8.0/24" = "Public Network (8.8.8.0/24)" := by
  refine ⟨fun cfg cidr => ?_, by decide, by decide, by decide, by decide⟩
  unfold get_friendly_cidr_name friendlyNameSpec
  cases lookupCidr cfg cidr
  · cases ip_network cidr <;> rfl
  · rfl

/-! ## Claim C10 — falsy group ids and CIDR strings are skipped -/

/-- Claim C10: a group reference with a missing or empty `GroupId`, and an
address range with a missing or empty `CidrIp`, leave the graph unchanged, and
processing a permission equals processing it with those entries filtered away
(so the surviving entries of the same rule are still processed). -/
theorem C10_skip_invalid :
    (∀ hl protocol fromPort toPort tgt vpc g gp, pyTruthy gp.groupId = false →
        processGroupPair hl protocol fromPort toPort tgt vpc g gp = g)
    ∧ (∀ cfg protocol fromPort toPort tgt g r, pyTruthy r.cidrIp = false →
        processIpRange cfg protocol fromPort toPort tgt g r = g)
    ∧ (∀ cfg hl tgt vpc g p,
        processPermission cfg hl tgt vpc g p
          = processPermission cfg hl tgt vpc g
              ⟨p.ipProtocol, p.fromPort, p.toPort,
               some ((p.userIdGroupPairs.getD []).filter (fun gp => pyTruthy gp.groupId)),
               some ((p.ipRanges.getD []).filter (fun r => pyTruthy r.cidrIp))⟩) := by
  refine ⟨fun hl protocol f t tgt vpc g gp h => ?_,
          fun cfg protocol f t tgt g r h => ?_,
          fun cfg hl tgt vpc g p => ?_⟩
  · simp [processGroupPair, h]
  · simp [processIpRange, h]
  · have hpairs : ∀ (prot : String) (f t : Int) (pairs : List GroupPair) (g0 : Graph),
        pairs.foldl (processGroupPair hl prot f t tgt vpc) g0
          = (pairs.filter fun gp => pyTruthy gp.groupId).foldl
              (processGroupPair hl prot f t tgt vpc) g0 :=
      fun prot f t pairs g0 =>
        foldl_eq_foldl_filter _ _ (fun a b hb => by simp [processGroupPair, hb]) pairs g0
    have hrngs : ∀ (prot : String) (f t : Int) (rngs : List IpRange) (g0 : Graph),
        rngs.foldl (processIpRange cfg prot f t tgt) g0
          = (rngs.filter fun r => pyTruthy r.cidrIp).foldl (processIpRange cfg prot f t tgt) g0 :=
      fun prot f t rngs g0 =>
        foldl_eq_foldl_filter _ _ (fun a b hb => by simp [processIpRange, hb]) rngs g0
    simp only [processPermission, Option.getD_some]
    rw [← hpairs, ← hrngs]

/-- Witness for C10 at concrete falsy entries. -/
theorem C10_skip_invalid_witness :
    pyTruthy (none : Option String) = false
    ∧ processGroupPair none "tcp" 22 22 "sg-A" "vpc-1" Graph.empty ⟨none, some "vpc-2"⟩
        = Graph.empty
    ∧ pyTruthy (some "") = false
    ∧ processIpRange [] "tcp" 22 22 "sg-A" Graph.empty ⟨some ""⟩ = Graph.empty :=
  ⟨by decide,
   C10_skip_invalid.1 none "tcp" 22 22 "sg-A" "vpc-1" Graph.empty ⟨none, some "vpc-2"⟩ (by decide),
   by decide,
   C10_skip_invalid.2.1 [] "tcp" 22 22 "sg-A" Graph.empty ⟨some ""⟩ (by decide)⟩

/-! ## Graph lemmas: node keys, lookups, insertion -/

/-- Node membership in terms of the key list. -/
theorem hasNode_iff_mem_keys (g : Graph) (k : String) :
    g.hasNode k = true ↔ k ∈ g.nodes.map Prod.fst := by
  unfold Graph.hasNode
  rw [List.any_eq_true]
  constructor
  · rintro ⟨p, hp, he⟩
    exact List.mem_map.mpr ⟨p, hp, by simpa using he⟩
  · intro h
    rcases List.mem_map.mp h with ⟨p, hp, he⟩
    exact ⟨p, hp, by simpa using he⟩

/-- A key reported absent is not among the node keys. -/
theorem not_mem_keys_of_hasNode_false {g : Graph} {k : String}
    (h : g.hasNode k = false) : k ∉ g.nodes.map Prod.fst := by
  intro hm
  have hk := (hasNode_iff_mem_keys g k).mpr hm
  rw [h] at hk
  exact Bool.false_ne_true hk

/-- A key reported absent has no `find?` hit among the nodes. -/
theorem find?_nodes_eq_none {g : Graph} {k : String} (h : g.hasNode k = false) :
    g.nodes.find? (fun p => p.1 == k) = none := by
  rw [List.find?_eq_none]
  intro x hx
  unfold Graph.hasNode at h
  rw [List.any_eq_false] at h
  exact h x hx

/-- The entry rewriting of an in-place node update keeps the key. -/
theorem fst_update_entry (k : String) (a : NodeAttrs) (p : String × NodeAttrs) :
    (if p.1 == k then (p.1, p.2.update a) else p).1 = p.1 := by
  split <;> rfl

/-- The in-place node update of `addNode` keeps the key list. -/
theorem map_fst_map_update (l : List (String × NodeAttrs)) (k : String) (a : NodeAttrs) :
    (l.map (fun p => if p.1 == k then (p.1, p.2.update a) else p)).map Prod.fst
      = l.map Prod.fst := by
  induction l with
  | nil => rfl
  | cons x xs ih => simp only [List.map_cons, fst_update_entry, ih]

/-- The key list of `addNode`: unchanged on an update, extended by the fresh
key on an insertion. -/
theorem addNode_keys (g : Graph) (k : String) (a : NodeAttrs) :
    (g.addNode k a).nodes.map Prod.fst
      = if g.hasNode k then g.nodes.map Prod.fst else g.nodes.map Prod.fst ++ [k] := by
  unfold Graph.addNode
  cases h : g.hasNode k
  · rw [if_neg (by simp [h]), if_neg (by simp [h])]
    simp only [List.map_append, List.map_cons, List.map_nil]
  · rw [if_pos (by simp [h]), if_pos (by simp [h])]
    exact map_fst_map_update _ _ _

/-- The key list of `ensureNode`. -/
theorem ensureNode_keys (g : Graph) (k : String) :
    (g.ensureNode k).nodes.map Prod.fst
      = if g.hasNode k then g.nodes.map Prod.fst else g.nodes.map Prod.fst ++ [k] := by
  unfold Graph.ensureNode
  cases h : g.hasNode k
  · rw [if_neg (by simp [h]), if_neg (by simp [h])]
    simp only [List.map_append, List.map_cons, List.map_nil]
  · rw [if_pos (by simp [h]), if_pos (by simp [h])]

/-- `addEdge` touches nodes only through the two `ensureNode` insertions. -/
theorem addEdge_nodes (g : Graph) (u v : String) (a : EdgeAttrs) :
    (g.addEdge u v a).nodes = ((g.ensureNode u).ensureNode v).nodes := by
  simp only [Graph.addEdge]
  split <;> rfl

/-- `addEdge` leaves every node lookup equal to the lookup in the
`ensureNode`-extended graph. -/
theorem addEdge_node? (g : Graph) (u v : String) (a : EdgeAttrs) (k : String) :
    (g.addEdge u v a).node? k = ((g.ensureNode u).ensureNode v).node? k := by
  unfold Graph.node?
  rw [addEdge_nodes]

/-- Appending one fresh key keeps the key list duplicate-free. -/
theorem nodup_append_fresh {l : List String} {k : String}
    (h : l.Nodup) (hk : k ∉ l) : (l ++ [k]).Nodup := by
  refine List.nodup_append.mpr ⟨h, List.nodup_singleton _, ?_⟩
  intro x hx hxk
  rw [List.mem_singleton] at hxk
  subst hxk
  exact hk hx

/-- Nodup of the key list survives `addNode`. -/
theorem keysNodup_addNode (g : Graph) (k : String) (a : NodeAttrs)
    (h : (g.nodes.map Prod.fst).Nodup) : ((g.addNode k a).nodes.map Prod.fst).Nodup := by
  rw [addNode_keys]
  cases hk : g.hasNode k
  · rw [if_neg (by simp [hk])]
    exact nodup_append_fresh h (not_mem_keys_of_hasNode_false hk)
  · rw [if_pos (by simp [hk])]
    exact h

/-- Nodup of the key list survives `ensureNode`. -/
theorem keysNodup_ensureNode (g : Graph) (k : String)
    (h : (g.nodes.map Prod.fst).Nodup) : ((g.ensureNode k).nodes.map Prod.fst).Nodup := by
  rw [ensureNode_keys]
  cases hk : g.hasNode k
  · rw [if_neg (by simp [hk])]
    exact nodup_append_fresh h (not_mem_keys_of_hasNode_false hk)
  · rw [if_pos (by simp [hk])]
    exact h

/-- Nodup of the key list survives `addEdge`. -/
theorem keysNodup_addEdge (g : Graph) (u v : String) (a : EdgeAttrs)
    (h : (g.nodes.map Prod.fst).Nodup) : ((g.addEdge u v a).nodes.map Prod.fst).Nodup := by
  rw [addEdge_nodes]
  exact keysNodup_ensureNode _ _ (keysNodup_ensureNode _ _ h)

/-- Inserting a fresh node makes it retrievable with exactly the attributes
passed. -/
theorem node?_addNode_fresh (g : Graph) (k : String) (a : NodeAttrs)
    (h : g.hasNode k = false) : (g.addNode k a).node? k = some a := by
  unfold Graph.addNode Graph.node?
  rw [if_neg (by simp [h]), List.find?_append, find?_nodes_eq_none h]
  simp

/-- A present node lookup survives `ensureNode`. -/
theorem node?_ensureNode {g : Graph} {k : String} {a : NodeAttrs} (j : String)
    (h : g.node? k = some a) : (g.ensureNode j).node? k = some a := by
  unfold Graph.ensureNode
  split
  · exact h
  · unfold Graph.node? at h ⊢
    rw [List.find?_append]
    rcases ho : g.nodes.find? (fun p => p.1 == k) with _ | p
    · rw [ho] at h
      simp at h
    · rw [ho] at h
      rw [ho]
      exact h

/-- A present node lookup survives `addEdge`. -/
theorem node?_addEdge {g : Graph} {k : String} {a : NodeAttrs} (u v : String)
    (e : EdgeAttrs) (h : g.node? k = some a) : (g.addEdge u v e).node? k = some a := by
  rw [addEdge_node?]
  exact node?_ensureNode v (node?_ensureNode u h)

/-- After `addEdge u v a`, the edge `(u, v)` is present and its `label`,
`ports` and `is_cross_vpc` entries are exactly those passed, provided the
passed dictionary contains them (an in-place update overwrites the provided
keys, an insertion stores them verbatim). -/
theorem addEdge_projections (g : Graph) (u v : String) (a : EdgeAttrs)
    (h1 : a.label.isSome) (h2 : a.ports.isSome) (h3 : a.is_cross_vpc.isSome) :
    ((g.addEdge u v a).edge? u v).map (fun e => (e.label, e.ports, e.is_cross_vpc))
      = some (a.label, a.ports, a.is_cross_vpc) := by
  simp only [Graph.addEdge, Graph.edge?]
  have hupd : ∀ o : EdgeAttrs,
      ((o.update a).label, (o.update a).ports, (o.update a).is_cross_vpc)
        = (a.label, a.ports, a.is_cross_vpc) := by
    intro o
    rcases ha1 : a.label with _ | x
    · rw [ha1] at h1; simp at h1
    · rcases ha2 : a.ports with _ | y
      · rw [ha2] at h2; simp at h2
      · rcases ha3 : a.is_cross_vpc with _ | z
        · rw [ha3] at h3; simp at h3
        · simp [EdgeAttrs.update, oUpd, ha1, ha2, ha3]
  split
  · next hEdge =>
    set g2 := (g.ensureNode u).ensureNode v with hg2
    have hfind : (g2.edges.find? (fun e => e.1 == u && e.2.1 == v)).isSome := by
      unfold Graph.hasEdge at hEdge
      rw [List.find?_isSome]
      rw [List.any_eq_true] at hEdge
      exact hEdge
    rcases ho : g2.edges.find? (fun e => e.1 == u && e.2.1 == v) with _ | e0
    · rw [ho] at hfind; simp at hfind
    · have hp := List.find?_some ho
      have hkey : updEdge u v a e0 = (e0.1, e0.2.1, e0.2.2.update a) := by
        unfold updEdge
        rw [hp]
        simp
      have hcomp : (fun e => e.1 == u && e.2.1 == v) ∘ updEdge u v a
          = (fun (e : String × String × EdgeAttrs) => e.1 == u && e.2.1 == v) := by
        funext e
        simp only [Function.comp_apply]
        unfold updEdge
        split <;> rfl
      rw [List.find?_map, hcomp, ho]
      simpa [updEdge, hp] using hupd e0.2.2
  · next hEdge =>
    set g2 := (g.ensureNode u).ensureNode v with hg2
    have hnone : g2.edges.find? (fun e => e.1 == u && e.2.1 == v) = none := by
      rw [List.find?_eq_none]
      intro x hx
      unfold Graph.hasEdge at hEdge
      rw [Bool.not_eq_true, List.any_eq_false] at hEdge
      exact hEdge x hx
    rw [List.find?_append, hnone]
    simp

/-! ## Preservation of key-Nodup through the base builder -/

/-- Every step of `processGroupPair` preserves Nodup of the node keys. -/
theorem keysNodup_processGroupPair (hl : Option String) (prot : String)
    (f t : Int) (tgt vpc : String) (g : Graph) (gp : GroupPair)
    (h : (g.nodes.map Prod.fst).Nodup) :
    (((processGroupPair hl prot f t tgt vpc g gp).nodes).map Prod.fst).Nodup := by
  simp only [processGroupPair]
  split
  · apply keysNodup_addEdge
    split
    · exact h
    · exact keysNodup_addNode _ _ _ h
  · exact h

/-- Every step of `processIpRange` preserves Nodup of the node keys. -/
theorem keysNodup_processIpRange (cfg : List (String × String)) (prot : String)
    (f t : Int) (tgt : String) (g : Graph) (r : IpRange)
    (h : (g.nodes.map Prod.fst).Nodup) :
    (((processIpRange cfg prot f t tgt g r).nodes).map Prod.fst).Nodup := by
  simp only [processIpRange]
  split
  · exact keysNodup_addEdge _ _ _ _ (keysNodup_addNode _ _ _ h)
  · exact h

/-- `processPermission` preserves Nodup of the node keys. -/
theorem keysNodup_processPermission (cfg : List (String × String)) (hl : Option String)
    (tgt vpc : String) (g : Graph) (p : Permission)
    (h : (g.nodes.map Prod.fst).Nodup) :
    (((processPermission cfg hl tgt vpc g p).nodes).map Prod.fst).Nodup := by
  simp only [processPermission]
  apply foldl_preserves (fun g0 => ((Graph.nodes g0).map Prod.fst).Nodup) _
    (fun a b ha => keysNodup_processIpRange _ _ _ _ _ a b ha)
  apply foldl_preserves (fun g0 => ((Graph.nodes g0).map Prod.fst).Nodup) _
    (fun a b ha => keysNodup_processGroupPair _ _ _ _ _ _ a b ha)
  exact h

/-- `processRecord` preserves Nodup of the node keys. -/
theorem keysNodup_processRecord (cfg : List (String × String)) (hl : Option String)
    (g : Graph) (sg : SecurityGroup) (h : (g.nodes.map Prod.fst).Nodup) :
    (((processRecord cfg hl g sg).nodes).map Prod.fst).Nodup := by
  simp only [processRecord]
  apply foldl_preserves (fun g0 => ((Graph.nodes g0).map Prod.fst).Nodup) _
    (fun a b ha => keysNodup_processPermission _ _ _ _ a b ha)
  exact keysNodup_addNode _ _ _ h

/-- The full record fold keeps the node keys duplicate-free. -/
theorem keysNodup_build (cfg : List (String × String)) (hl : Option String)
    (sgs : List SecurityGroup) :
    (((sgs.foldl (processRecord cfg hl) Graph.empty).nodes).map Prod.fst).Nodup := by
  apply foldl_preserves (fun g0 => ((Graph.nodes g0).map Prod.fst).Nodup) _
    (fun a b ha => keysNodup_processRecord _ _ a b ha)
  exact List.nodup_nil

/-! ## Claim C3 — node identity and CIDR collapsing -/

/-- Claim C3: in every built graph each node key occurs exactly once (the key
list is duplicate-free, re-adding an id being an attribute overwrite), with
last-write-wins on duplicate record ids, and address-block nodes are keyed by
their friendly label so that two records allowing the same CIDR share one
address-block node while keeping one inbound edge each. -/
theorem C3_node_identity :
    (∀ cfg sgs hl,
        (((build_graph cfg VisualizerState.init sgs hl).graph.nodes).map Prod.fst).Nodup)
    ∧ (build_graph cfgEx VisualizerState.init recsDupId none).graph.nodes.length = 1
    ∧ ((build_graph cfgEx VisualizerState.init recsDupId none).graph.node? "sg-1").map
          NodeAttrs.name
        = some (some "second")
    ∧ (((build_graph cfgEx VisualizerState.init recsCidrPair none).graph.nodes.filter
          (fun p => p.2.ntype == some "cidr")).map Prod.fst)
        = ["CIDR: Internet (0.0.0.0/0)"]
    ∧ ((build_graph cfgEx VisualizerState.init recsCidrPair none).graph.edges.map
          (fun e => (e.1, e.2.1)))
        = [("CIDR: Internet (0.0.0.0/0)", "sg-1"), ("CIDR: Internet (0.0.0.0/0)", "sg-2")] := by
  refine ⟨fun cfg sgs hl => ?_, by decide, by decide, by decide, by decide⟩
  have hb : (build_graph cfg VisualizerState.init sgs hl).graph
      = sgs.foldl (processRecord cfg hl) Graph.empty := rfl
  rw [hb]
  exact keysNodup_build cfg hl sgs

/-! ## Claim C2 — placeholder synthesis -/

/-- Claim C2: a truthy group reference whose id is not yet a node synthesizes
a placeholder node with name `"Security Group <id>"`, description
`"Referenced Security Group"` and the reference's container id (defaulted to
`"Unknown VPC"`), together with a directed edge from the referenced id to the
declaring record, carrying the documented label, port range and
cross-boundary flag; instantiated by the spec's `sg-A`/`sg-B` example. -/
theorem C2_placeholder_synthesis :
    (∀ hl prot (f t : Int) tgt vpc g gp sid,
        gp.groupId = some sid → sid ≠ "" → g.hasNode sid = false →
        ((processGroupPair hl prot f t tgt vpc g gp).node? sid
            = some (placeholderAttrs sid (gp.vpcId.getD "Unknown VPC") hl)
          ∧ ((processGroupPair hl prot f t tgt vpc g gp).edge? sid tgt).map
                (fun a => (a.label, a.ports, a.is_cross_vpc))
              = some (some (prot ++ ":" ++ format_ports f t),
                      some (toString f ++ "-" ++ toString t),
                      some (!((gp.vpcId.getD "Unknown VPC") == vpc
                              || (gp.vpcId.getD "Unknown VPC") == "Unknown VPC")))))
    ∧ (build_graph cfgEx VisualizerState.init [recA] none).graph.node? "sg-B"
        = some (placeholderAttrs "sg-B" "vpc-2" none)
    ∧ ((build_graph cfgEx VisualizerState.init [recA] none).graph.edge? "sg-B" "sg-A").map
          (fun a => a.is_cross_vpc)
        = some (some true) := by
  refine ⟨?_, by decide, by decide⟩
  intro hl prot f t tgt vpc g gp sid hgid hne hfresh
  have htruthy : pyTruthy (some sid) = true := by
    simpa [pyTruthy, bne_iff_ne] using hne
  simp only [processGroupPair, hgid, htruthy, if_true, Option.getD_some, hfresh,
    Bool.false_eq_true, if_false]
  constructor
  · apply node?_addEdge
    exact node?_addNode_fresh g sid _ hfresh
  · exact addEdge_projections _ sid tgt
      (sgEdgeAttrs prot f t (gp.vpcId.getD "Unknown VPC") vpc) rfl rfl rfl

/-- Witness for C2 at an explicit fresh reference. -/
theorem C2_placeholder_synthesis_witness :
    (⟨some "sg-B", some "vpc-2"⟩ : GroupPair).groupId = some "sg-B"
    ∧ "sg-B" ≠ ""
    ∧ Graph.empty.hasNode "sg-B" = false
    ∧ ((processGroupPair none "tcp" 443 443 "sg-A" "vpc-1" Graph.empty
          ⟨some "sg-B", some "vpc-2"⟩).node? "sg-B"
        = some (placeholderAttrs "sg-B" "vpc-2" none)) := by
  refine ⟨rfl, by decide, by decide, ?_⟩
  exact (C2_placeholder_synthesis.1 none "tcp" 443 443 "sg-A" "vpc-1" Graph.empty
    ⟨some "sg-B", some "vpc-2"⟩ "sg-B" rfl (by decide) (by decide)).1

/-! ## Highlight isolation: topology is independent of the highlight id -/

/-- Keys are recoverable after stripping the highlight hint. -/
theorem keys_eq_of_strip_eq {l lO : List (String × NodeAttrs)}
    (h : l.map stripHlEntry = lO.map stripHlEntry) :
    l.map Prod.fst = lO.map Prod.fst := by
  calc l.map Prod.fst = (l.map stripHlEntry).map Prod.fst := by rw [List.map_map]; rfl
    _ = (lO.map stripHlEntry).map Prod.fst := by rw [h]
    _ = lO.map Prod.fst := by rw [List.map_map]; rfl

/-- A key predicate over entries factors through the key list. -/
theorem any_key (l : List (String × NodeAttrs)) (k : String) :
    l.any (fun p => p.1 == k) = (l.map Prod.fst).any (fun x => x == k) := by
  induction l with
  | nil => rfl
  | cons x xs ih => simp only [List.any_cons, List.map_cons, ih]

/-- Node membership is invariant under stripping the highlight hints. -/
theorem hasNode_eq_of_strip_eq {g gO : Graph}
    (h : g.nodes.map stripHlEntry = gO.nodes.map stripHlEntry) (k : String) :
    g.hasNode k = gO.hasNode k := by
  unfold Graph.hasNode
  rw [any_key, any_key, keys_eq_of_strip_eq h]

/-- Dictionary update commutes with stripping the highlight hint. -/
theorem stripHl_update (o a : NodeAttrs) :
    (o.update a).stripHl = o.stripHl.update a.stripHl := by
  simp [NodeAttrs.update, NodeAttrs.stripHl, oUpd]

/-- The in-place update of `addNode` commutes with stripping the hints. -/
theorem strip_map_update (l : List (String × NodeAttrs)) (k : String) (a : NodeAttrs) :
    (l.map (fun p => if p.1 == k then (p.1, p.2.update a) else p)).map stripHlEntry
      = (l.map stripHlEntry).map
          (fun p => if p.1 == k then (p.1, p.2.update a.stripHl) else p) := by
  induction l with
  | nil => rfl
  | cons x xs ih =>
    simp only [List.map_cons, ih, stripHlEntry]
    cases hx : x.1 == k
    · simp [hx]
    · simp [hx, stripHl_update]

/-- `addNode` preserves strip-equality when the passed dictionaries agree up
to the highlight hint. -/
theorem strip_addNode {g gO : Graph}
    (h : g.nodes.map stripHlEntry = gO.nodes.map stripHlEntry)
    (k : String) (a aO : NodeAttrs) (ha : a.stripHl = aO.stripHl) :
    (g.addNode k a).nodes.map stripHlEntry = (gO.addNode k aO).nodes.map stripHlEntry := by
  unfold Graph.addNode
  have hn := hasNode_eq_of_strip_eq h k
  cases hv : gO.hasNode k
  · rw [hn, hv]
    simp only [Bool.false_eq_true, if_false, List.map_append, h, List.map_cons, List.map_nil]
    simp only [stripHlEntry, ha]
  · rw [hn, hv]
    simp only [if_true, strip_map_update, h, ha]

/-- `ensureNode` preserves strip-equality. -/
theorem strip_ensureNode {g gO : Graph}
    (h : g.nodes.map stripHlEntry = gO.nodes.map stripHlEntry) (k : String) :
    (g.ensureNode k).nodes.map stripHlEntry
      = (gO.ensureNode k).nodes.map stripHlEntry := by
  unfold Graph.ensureNode
  have hn := hasNode_eq_of_strip_eq h k
  cases hv : gO.hasNode k
  · rw [hn, hv]
    simp only [Bool.false_eq_true, if_false, List.map_append, h, List.map_cons, List.map_nil]
  · rw [hn, hv]
    simp only [if_true, h]

/-- `ensureNode` never touches the edges. -/
theorem ensureNode_edges (g : Graph) (k : String) : (g.ensureNode k).edges = g.edges := by
  unfold Graph.ensureNode
  split <;> rfl

/-- `addEdge` preserves strip-equality of the nodes and equality of the
edges. -/
theorem strip_addEdge {g gO : Graph}
    (h1 : g.nodes.map stripHlEntry = gO.nodes.map stripHlEntry)
    (h2 : g.edges = gO.edges) (u v : String) (a : EdgeAttrs) :
    (g.addEdge u v a).nodes.map stripHlEntry
        = (gO.addEdge u v a).nodes.map stripHlEntry
      ∧ (g.addEdge u v a).edges = (gO.addEdge u v a).edges := by
  have hs : ((g.ensureNode u).ensureNode v).nodes.map stripHlEntry
      = ((gO.ensureNode u).ensureNode v).nodes.map stripHlEntry :=
    strip_ensureNode (strip_ensureNode h1 u) v
  have he : ((g.ensureNode u).ensureNode v).edges = ((gO.ensureNode u).ensureNode v).edges := by
    rw [ensureNode_edges, ensureNode_edges, ensureNode_edges, ensureNode_edges, h2]
  have hhe : ((g.ensureNode u).ensureNode v).hasEdge u v
      = ((gO.ensureNode u).ensureNode v).hasEdge u v := by
    unfold Graph.hasEdge
    rw [he]
  constructor
  · simp only [Graph.addEdge]
    split <;> split <;> simp_all
  · simp only [Graph.addEdge]
    rw [hhe]
    cases hv : ((gO.ensureNode u).ensureNode v).hasEdge u v
    · simp only [Bool.false_eq_true, if_false, he]
    · simp only [if_true, he]

/-- `addNode` never touches the edges. -/
theorem addNode_edges (g : Graph) (k : String) (a : NodeAttrs) :
    (g.addNode k a).edges = g.edges := by
  unfold Graph.addNode
  split <;> rfl

/-- `processGroupPair` with two different highlight ids preserves
strip-equality of the nodes and equality of the edges. -/
theorem strip_processGroupPair (hl hlO : Option String) (prot : String) (f t : Int)
    (tgt vpc : String) {g gO : Graph}
    (h1 : g.nodes.map stripHlEntry = gO.nodes.map stripHlEntry)
    (h2 : g.edges = gO.edges) (gp : GroupPair) :
    (processGroupPair hl prot f t tgt vpc g gp).nodes.map stripHlEntry
        = (processGroupPair hlO prot f t tgt vpc gO gp).nodes.map stripHlEntry
      ∧ (processGroupPair hl prot f t tgt vpc g gp).edges
        = (processGroupPair hlO prot f t tgt vpc gO gp).edges := by
  simp only [processGroupPair]
  cases ht : pyTruthy gp.groupId
  · simp only [ht, Bool.false_eq_true, if_false]
    exact ⟨h1, h2⟩
  · simp only [ht, if_true]
    have hn := hasNode_eq_of_strip_eq h1 (gp.groupId.getD "")
    rw [hn]
    cases hv : gO.hasNode (gp.groupId.getD "")
    · simp only [Bool.false_eq_true, if_false]
      exact strip_addEdge
        (strip_addNode h1 (gp.groupId.getD "")
          (placeholderAttrs (gp.groupId.getD "") (gp.vpcId.getD "Unknown VPC") hl)
          (placeholderAttrs (gp.groupId.getD "") (gp.vpcId.getD "Unknown VPC") hlO) rfl)
        (by rw [addNode_edges, addNode_edges, h2]) _ _ _
    · simp only [if_true]
      exact strip_addEdge h1 h2 _ _ _

/-- `processIpRange` preserves strip-equality of the nodes and equality of
the edges. -/
theorem strip_processIpRange (cfg : List (String × String)) (prot : String)
    (f t : Int) (tgt : String) {g gO : Graph}
    (h1 : g.nodes.map stripHlEntry = gO.nodes.map stripHlEntry)
    (h2 : g.edges = gO.edges) (r : IpRange) :
    (processIpRange cfg prot f t tgt g r).nodes.map stripHlEntry
        = (processIpRange cfg prot f t tgt gO r).nodes.map stripHlEntry
      ∧ (processIpRange cfg prot f t tgt g r).edges
        = (processIpRange cfg prot f t tgt gO r).edges := by
  simp only [processIpRange]
  cases ht : pyTruthy r.cidrIp
  · simp only [ht, Bool.false_eq_true, if_false]
    exact ⟨h1, h2⟩
  · simp only [ht, if_true]
    exact strip_addEdge
      (strip_addNode h1 ("CIDR: " ++ get_friendly_cidr_name cfg (r.cidrIp.getD ""))
        (cidrNodeAttrs (get_friendly_cidr_name cfg (r.cidrIp.getD "")))
        (cidrNodeAttrs (get_friendly_cidr_name cfg (r.cidrIp.getD ""))) rfl)
      (by rw [addNode_edges, addNode_edges, h2]) _ _ _

/-- `processPermission` with two different highlight ids preserves
strip-equality of the nodes and equality of the edges. -/
theorem strip_processPermission (cfg : List (String × String)) (hl hlO : Option String)
    (tgt vpc : String) {g gO : Graph}
    (h1 : g.nodes.map stripHlEntry = gO.nodes.map stripHlEntry)
    (h2 : g.edges = gO.edges) (p : Permission) :
    (processPermission cfg hl tgt vpc g p).nodes.map stripHlEntry
        = (processPermission cfg hlO tgt vpc gO p).nodes.map stripHlEntry
      ∧ (processPermission cfg hl tgt vpc g p).edges
        = (processPermission cfg hlO tgt vpc gO p).edges := by
  simp only [processPermission]
  have hpairs := foldl_rel
    (fun a aO => a.nodes.map stripHlEntry = aO.nodes.map stripHlEntry ∧ a.edges = aO.edges)
    (processGroupPair hl (p.ipProtocol.getD "-1") (p.fromPort.getD (-1))
      (p.toPort.getD (-1)) tgt vpc)
    (processGroupPair hlO (p.ipProtocol.getD "-1") (p.fromPort.getD (-1))
      (p.toPort.getD (-1)) tgt vpc)
    (fun a aO b hab => strip_processGroupPair _ _ _ _ _ _ _ hab.1 hab.2 b)
    (p.userIdGroupPairs.getD []) g gO ⟨h1, h2⟩
  exact foldl_rel
    (fun a aO => a.nodes.map stripHlEntry = aO.nodes.map stripHlEntry ∧ a.edges = aO.edges)
    (processIpRange cfg (p.ipProtocol.getD "-1") (p.fromPort.getD (-1))
      (p.toPort.getD (-1)) tgt)
    (processIpRange cfg (p.ipProtocol.getD "-1") (p.fromPort.getD (-1))
      (p.toPort.getD (-1)) tgt)
    (fun a aO b hab => strip_processIpRange _ _ _ _ _ hab.1 hab.2 b)
    (p.ipRanges.getD []) _ _ hpairs

/-- `processRecord` with two different highlight ids preserves strip-equality
of the nodes and equality of the edges. -/
theorem strip_processRecord (cfg : List (String × String)) (hl hlO : Option String)
    {g gO : Graph}
    (h1 : g.nodes.map stripHlEntry = gO.nodes.map stripHlEntry)
    (h2 : g.edges = gO.edges) (sg : SecurityGroup) :
    (processRecord cfg hl g sg).nodes.map stripHlEntry
        = (processRecord cfg hlO gO sg).nodes.map stripHlEntry
      ∧ (processRecord cfg hl g sg).edges = (processRecord cfg hlO gO sg).edges := by
  simp only [processRecord]
  exact foldl_rel
    (fun a aO => a.nodes.map stripHlEntry = aO.nodes.map stripHlEntry ∧ a.edges = aO.edges)
    (processPermission cfg hl sg.groupId (sg.vpcId.getD "Unknown VPC"))
    (processPermission cfg hlO sg.groupId (sg.vpcId.getD "Unknown VPC"))
    (fun a aO b hab => strip_processPermission _ _ _ _ _ hab.1 hab.2 b)
    (sg.ipPermissions.getD []) _ _
    ⟨strip_addNode h1 sg.groupId
        (recordAttrs sg.groupId (sg.groupName.getD "Unknown") (sg.description.getD "")
          (sg.vpcId.getD "Unknown VPC") hl)
        (recordAttrs sg.groupId (sg.groupName.getD "Unknown") (sg.description.getD "")
          (sg.vpcId.getD "Unknown VPC") hlO) rfl,
      by rw [addNode_edges, addNode_edges, h2]⟩

/-! ## Highlight consistency: every hint is `key == highlight_sg` -/

/-- `addNode` keeps highlight consistency when the passed dictionary's hint
is absent or is the canonical `key == hl` value. -/
theorem hinv_addNode {hl : Option String} {g : Graph} (k : String) (a : NodeAttrs)
    (hg : highlightConsistent hl g)
    (ha : a.is_highlighted = none ∨ a.is_highlighted = some (eqHighlight k hl)) :
    highlightConsistent hl (g.addNode k a) := by
  unfold Graph.addNode
  split
  · intro p hp
    rcases List.mem_map.mp hp with ⟨q, hq, hqe⟩
    by_cases hqk : (q.1 == k) = true
    · rw [if_pos hqk] at hqe
      subst hqe
      have hq1 : q.1 = k := by simpa using hqk
      rcases ha with ha | ha
      · have : (q.2.update a).is_highlighted = q.2.is_highlighted := by
          simp [NodeAttrs.update, ha, oUpd]
        rw [this]
        exact hg q hq
      · right
        have : (q.2.update a).is_highlighted = a.is_highlighted := by
          rcases hx : a.is_highlighted with _ | b
          · rw [hx] at ha; cases ha
          · simp [NodeAttrs.update, hx, oUpd]
        rw [this, ha, hq1]
    · rw [if_neg hqk] at hqe
      subst hqe
      exact hg q hq
  · intro p hp
    rcases List.mem_append.mp hp with hp | hp
    · exact hg p hp
    · rw [List.mem_singleton] at hp
      subst hp
      rcases ha with ha | ha
      · left; exact ha
      · right; rw [ha]

/-- `ensureNode` keeps highlight consistency (the inserted dictionary has no
hint). -/
theorem hinv_ensureNode {hl : Option String} {g : Graph} (k : String)
    (hg : highlightConsistent hl g) : highlightConsistent hl (g.ensureNode k) := by
  unfold Graph.ensureNode
  split
  · exact hg
  · intro p hp
    rcases List.mem_append.mp hp with hp | hp
    · exact hg p hp
    · rw [List.mem_singleton] at hp
      subst hp
      left; rfl

/-- `addEdge` keeps highlight consistency. -/
theorem hinv_addEdge {hl : Option String} {g : Graph} (u v : String) (a : EdgeAttrs)
    (hg : highlightConsistent hl g) : highlightConsistent hl (g.addEdge u v a) := by
  intro p hp
  rw [addEdge_nodes] at hp
  exact hinv_ensureNode v (hinv_ensureNode u hg) p hp

/-- `processGroupPair` keeps highlight consistency: the placeholder's hint is
canonical for its key. -/
theorem hinv_processGroupPair (hl : Option String) (prot : String) (f t : Int)
    (tgt vpc : String) {g : Graph} (hg : highlightConsistent hl g) (gp : GroupPair) :
    highlightConsistent hl (processGroupPair hl prot f t tgt vpc g gp) := by
  simp only [processGroupPair]
  split
  · apply hinv_addEdge
    split
    · exact hg
    · exact hinv_addNode _ _ hg (Or.inr rfl)
  · exact hg

/-- `processIpRange` keeps highlight consistency: CIDR nodes carry no hint. -/
theorem hinv_processIpRange (cfg : List (String × String)) (prot : String)
    (f t : Int) (tgt : String) {g : Graph} (hg : highlightConsistent hl g) (r : IpRange) :
    highlightConsistent hl (processIpRange cfg prot f t tgt g r) := by
  simp only [processIpRange]
  split
  · exact hinv_addEdge _ _ _ (hinv_addNode _ _ hg (Or.inl rfl))
  · exact hg

/-- `processPermission` keeps highlight consistency. -/
theorem hinv_processPermission (cfg : List (String × String)) (hl : Option String)
    (tgt vpc : String) {g : Graph} (hg : highlightConsistent hl g) (p : Permission) :
    highlightConsistent hl (processPermission cfg hl tgt vpc g p) := by
  simp only [processPermission]
  apply foldl_preserves (highlightConsistent hl) _
    (fun a b ha => hinv_processIpRange _ _ _ _ _ ha b)
  apply foldl_preserves (highlightConsistent hl) _
    (fun a b ha => hinv_processGroupPair _ _ _ _ _ _ ha b)
  exact hg

/-- `processRecord` keeps highlight consistency: the record node's hint is
canonical for its key. -/
theorem hinv_processRecord (cfg : List (String × String)) (hl : Option String)
    {g : Graph} (hg : highlightConsistent hl g) (sg : SecurityGroup) :
    highlightConsistent hl (processRecord cfg hl g sg) := by
  simp only [processRecord]
  apply foldl_preserves (highlightConsistent hl) _
    (fun a b ha => hinv_processPermission _ _ _ _ ha b)
  exact hinv_addNode _ _ hg (Or.inr rfl)

/-- With duplicate-free keys and consistent hints, at most one node is
highlighted. -/
theorem count_highlighted_le_one {hl : Option String} :
    ∀ {l : List (String × NodeAttrs)}, (l.map Prod.fst).Nodup →
    (∀ p ∈ l, p.2.is_highlighted = none ∨ p.2.is_highlighted = some (eqHighlight p.1 hl)) →
    (l.filter (fun p => p.2.is_highlighted == some true)).length ≤ 1 := by
  intro l
  induction l with
  | nil =>
    intro _ _
    simp
  | cons x xs ih =>
    intro hnd hinv
    have hndt : (xs.map Prod.fst).Nodup := by
      rw [List.map_cons] at hnd
      exact hnd.of_cons
    cases hx : (x.2.is_highlighted == some true)
    · rw [List.filter_cons_of_neg
        (p := fun q : String × NodeAttrs => q.2.is_highlighted == some true) (by simp [hx])]
      exact ih hndt (fun p hp => hinv p (List.mem_cons_of_mem _ hp))
    · rw [List.filter_cons_of_pos
        (p := fun q : String × NodeAttrs => q.2.is_highlighted == some true) hx]
      have hxh : x.2.is_highlighted = some true := by simpa using hx
      have hhl : hl = some x.1 := by
        rcases hinv x (List.mem_cons_self x xs) with hnone | hsome
        · rw [hnone] at hxh; cases hxh
        · rw [hsome] at hxh
          have he : eqHighlight x.1 hl = true := by simpa using hxh
          unfold eqHighlight at he
          cases hl with
          | none => simp at he
          | some h0 =>
            have hx1 : x.1 = h0 := by simpa using he
            rw [hx1]
      have hrest : xs.filter (fun p => p.2.is_highlighted == some true) = [] := by
        rw [List.filter_eq_nil_iff]
        intro p hp hpt
        have hph : p.2.is_highlighted = some true := by simpa using hpt
        rcases hinv p (List.mem_cons_of_mem _ hp) with hnone | hsome
        · rw [hnone] at hph; cases hph
        · rw [hsome] at hph
          have he : eqHighlight p.1 hl = true := by simpa using hph
          rw [hhl] at he
          unfold eqHighlight at he
          have hpx : p.1 = x.1 := by simpa using he
          rw [List.map_cons] at hnd
          exact (List.nodup_cons.mp hnd).1 (hpx ▸ List.mem_map_of_mem Prod.fst hp)
      rw [hrest]
      simp

/-! ## Claim C9 — the highlight id only toggles rendering hints -/

/-- Claim C9: builds of the same records with any two highlight ids produce
the same node list up to the `is_highlighted` hint and exactly the same edge
list with all attributes, and in every build at most one node carries
`is_highlighted = True`. -/
theorem C9_highlight_isolation :
    (∀ cfg sgs hl1 hl2,
        (build_graph cfg VisualizerState.init sgs hl1).graph.nodes.map stripHlEntry
            = (build_graph cfg VisualizerState.init sgs hl2).graph.nodes.map stripHlEntry
          ∧ (build_graph cfg VisualizerState.init sgs hl1).graph.edges
            = (build_graph cfg VisualizerState.init sgs hl2).graph.edges)
    ∧ (∀ cfg sgs hl,
        ((build_graph cfg VisualizerState.init sgs hl).graph.nodes.filter
            (fun p => p.2.is_highlighted == some true)).length ≤ 1) := by
  constructor
  · intro cfg sgs hl1 hl2
    have hb1 : (build_graph cfg VisualizerState.init sgs hl1).graph
        = sgs.foldl (processRecord cfg hl1) Graph.empty := rfl
    have hb2 : (build_graph cfg VisualizerState.init sgs hl2).graph
        = sgs.foldl (processRecord cfg hl2) Graph.empty := rfl
    rw [hb1, hb2]
    exact foldl_rel
      (fun a aO => a.nodes.map stripHlEntry = aO.nodes.map stripHlEntry ∧ a.edges = aO.edges)
      (processRecord cfg hl1) (processRecord cfg hl2)
      (fun a aO b hab => strip_processRecord cfg hl1 hl2 hab.1 hab.2 b)
      sgs _ _ ⟨rfl, rfl⟩
  · intro cfg sgs hl
    have hb : (build_graph cfg VisualizerState.init sgs hl).graph
        = sgs.foldl (processRecord cfg hl) Graph.empty := rfl
    rw [hb]
    apply count_highlighted_le_one (keysNodup_build cfg hl sgs)
    apply foldl_preserves (highlightConsistent hl) _
      (fun a b ha => hinv_processRecord cfg hl ha b)
    intro p hp
    simp [Graph.empty] at hp

/-! ## Cross-boundary classification (claim C1) -/

/-- Address-block node keys always lie in the `"CIDR: …"` key space. -/
theorem cidrPrefixed_append (s : String) : cidrPrefixed ("CIDR: " ++ s) = true := by
  unfold cidrPrefixed
  rw [String.data_append, List.isPrefixOf_iff_prefix]
  exact List.prefix_append _ _

/-- A fold preserves an invariant when every list element's step does. -/
theorem foldl_preserves_mem {α β : Type} (P : α → Prop) (f : α → β → α) :
    ∀ (l : List β), (∀ b ∈ l, ∀ a, P a → P (f a b)) → ∀ a, P a → P (l.foldl f a) := by
  intro l
  induction l with
  | nil => exact fun _ a ha => ha
  | cons x xs ih =>
    intro h a ha
    exact ih (fun b hb => h b (List.mem_cons_of_mem _ hb)) _ (h x (List.mem_cons_self _ _) a ha)

/-- A successful node lookup is a node membership. -/
theorem node?_mem {g : Graph} {k : String} {a : NodeAttrs} (h : g.node? k = some a) :
    (k, a) ∈ g.nodes := by
  unfold Graph.node? at h
  rcases ho : g.nodes.find? (fun p => p.1 == k) with _ | p
  · rw [ho] at h; cases h
  · rw [ho] at h
    have hm := List.mem_of_find?_eq_some ho
    have hp := List.find?_some ho
    have h2 : p.2 = a := by simpa using h
    have h1 : p.1 = k := by simpa using hp
    rw [← h1, ← h2]
    exact hm

/-- `addNode` keeps `cidrEdgesSafe` when the passed dictionary types the node
`"cidr"` only for keys of the address-block space. -/
theorem safe_addNode {g : Graph} (k : String) (a : NodeAttrs) (hg : cidrEdgesSafe g)
    (ha : a.ntype = some "cidr" → cidrPrefixed k = true) :
    cidrEdgesSafe (g.addNode k a) := by
  constructor
  · intro e he
    rw [addNode_edges] at he
    exact hg.1 e he
  · unfold Graph.addNode
    split
    · intro p hp
      rcases List.mem_map.mp hp with ⟨q, hq, hqe⟩
      by_cases hqk : (q.1 == k) = true
      · rw [if_pos hqk] at hqe
        subst hqe
        have hq1 : q.1 = k := by simpa using hqk
        intro hcid
        rcases hx : a.ntype with _ | x
        · have : (q.2.update a).ntype = q.2.ntype := by
            simp [NodeAttrs.update, hx, oUpd]
          rw [this] at hcid
          exact hg.2 q hq hcid
        · have : (q.2.update a).ntype = a.ntype := by
            simp [NodeAttrs.update, hx, oUpd]
          rw [this] at hcid
          rw [hq1]
          exact ha hcid
      · rw [if_neg hqk] at hqe
        subst hqe
        exact hg.2 q hq
    · intro p hp
      rcases List.mem_append.mp hp with hp | hp
      · exact hg.2 p hp
      · rw [List.mem_singleton] at hp
        subst hp
        exact ha

/-- `ensureNode` keeps `cidrEdgesSafe` (its dictionary is empty). -/
theorem safe_ensureNode {g : Graph} (k : String) (hg : cidrEdgesSafe g) :
    cidrEdgesSafe (g.ensureNode k) := by
  constructor
  · intro e he
    rw [ensureNode_edges] at he
    exact hg.1 e he
  · unfold Graph.ensureNode
    split
    · exact hg.2
    · intro p hp
      rcases List.mem_append.mp hp with hp | hp
      · exact hg.2 p hp
      · rw [List.mem_singleton] at hp
        subst hp
        intro hcid
        cases hcid

/-- `addEdge` keeps `cidrEdgesSafe` when the new attributes respect the
invariant for the edge's source key. -/
theorem safe_addEdge {g : Graph} (u v : String) (a : EdgeAttrs) (hg : cidrEdgesSafe g)
    (hu : cidrPrefixed u = true → a.is_cross_vpc = some false)
    (hs : a.is_cross_vpc.isSome = true) :
    cidrEdgesSafe (g.addEdge u v a) := by
  have hnodes := (safe_ensureNode v (safe_ensureNode u hg)).2
  have hedges : ∀ e ∈ ((g.ensureNode u).ensureNode v).edges,
      cidrPrefixed e.1 = true → e.2.2.is_cross_vpc = some false := by
    intro e he
    rw [ensureNode_edges, ensureNode_edges] at he
    exact hg.1 e he
  constructor
  · simp only [Graph.addEdge]
    split
    · intro e he
      rcases List.mem_map.mp he with ⟨e0, he0, hee⟩
      subst hee
      unfold updEdge
      split
      · next hcond =>
        rw [Bool.and_eq_true] at hcond
        have h1 : e0.1 = u := by simpa using hcond.1
        intro hcid
        have : (e0.2.2.update a).is_cross_vpc = a.is_cross_vpc := by
          rcases hx : a.is_cross_vpc with _ | b
          · rw [hx] at hs; cases hs
          · simp [EdgeAttrs.update, hx, oUpd]
        rw [this]
        apply hu
        rwa [h1] at hcid
      · exact hedges e0 he0
    · intro e he
      rcases List.mem_append.mp he with he | he
      · exact hedges e he
      · rw [List.mem_singleton] at he
        subst he
        exact hu
  · intro p hp
    rw [addEdge_nodes] at hp
    exact hnodes p hp

/-- `processGroupPair` keeps `cidrEdgesSafe` when the reference's id does not
collide with the address-block key space. -/
theorem safe_processGroupPair (hl : Option String) (prot : String) (f t : Int)
    (tgt vpc : String) {g : Graph} (hg : cidrEdgesSafe g) (gp : GroupPair)
    (hgp : cidrPrefixed (gp.groupId.getD "") = false) :
    cidrEdgesSafe (processGroupPair hl prot f t tgt vpc g gp) := by
  simp only [processGroupPair]
  split
  · apply safe_addEdge
    · split
      · exact hg
      · exact safe_addNode _ _ hg (fun h => by simp [placeholderAttrs] at h)
    · intro hcp
      rw [hgp] at hcp
      cases hcp
    · rfl
  · exact hg

/-- `processIpRange` keeps `cidrEdgesSafe`: the CIDR node key lies in the
address-block space and the CIDR edge carries `is_cross_vpc = False`. -/
theorem safe_processIpRange (cfg : List (String × String)) (prot : String)
    (f t : Int) (tgt : String) {g : Graph} (hg : cidrEdgesSafe g) (r : IpRange) :
    cidrEdgesSafe (processIpRange cfg prot f t tgt g r) := by
  simp only [processIpRange]
  split
  · apply safe_addEdge
    · exact safe_addNode _ _ hg (fun _ => cidrPrefixed_append _)
    · intro _
      rfl
    · rfl
  · exact hg

/-- `processPermission` keeps `cidrEdgesSafe` when none of its references
collide with the address-block key space. -/
theorem safe_processPermission (cfg : List (String × String)) (hl : Option String)
    (tgt vpc : String) {g : Graph} (hg : cidrEdgesSafe g) (p : Permission)
    (hp : ∀ gp ∈ p.userIdGroupPairs.getD [], cidrPrefixed (gp.groupId.getD "") = false) :
    cidrEdgesSafe (processPermission cfg hl tgt vpc g p) := by
  simp only [processPermission]
  apply foldl_preserves cidrEdgesSafe _
    (fun a b ha => safe_processIpRange _ _ _ _ _ ha b)
  exact foldl_preserves_mem cidrEdgesSafe _ _
    (fun b hb a ha => safe_processGroupPair _ _ _ _ _ _ ha b (hp b hb)) g hg

/-- `processRecord` keeps `cidrEdgesSafe` under the same proviso. -/
theorem safe_processRecord (cfg : List (String × String)) (hl : Option String)
    {g : Graph} (hg : cidrEdgesSafe g) (sg : SecurityGroup)
    (hs : ∀ p ∈ sg.ipPermissions.getD [], ∀ gp ∈ p.userIdGroupPairs.getD [],
      cidrPrefixed (gp.groupId.getD "") = false) :
    cidrEdgesSafe (processRecord cfg hl g sg) := by
  simp only [processRecord]
  apply foldl_preserves_mem cidrEdgesSafe _ _
    (fun b hb a ha => safe_processPermission _ _ _ _ ha b (hs b hb))
  exact safe_addNode _ _ hg (fun h => by simp [recordAttrs] at h)

/-- Unpacking `hasCidrRefId = false` into per-reference facts. -/
theorem hasCidrRefId_eq_false {sgs : List SecurityGroup}
    (h : hasCidrRefId sgs = false) :
    ∀ sg ∈ sgs, ∀ p ∈ sg.ipPermissions.getD [], ∀ gp ∈ p.userIdGroupPairs.getD [],
      cidrPrefixed (gp.groupId.getD "") = false := by
  unfold hasCidrRefId at h
  rw [List.any_eq_false] at h
  intro sg hsg p hp gp hgp
  have h1 := h sg hsg
  rw [List.any_eq_true] at h1
  have h2 : ¬ ((p.userIdGroupPairs.getD []).any fun gp => cidrPrefixed (gp.groupId.getD "")) = true :=
    fun hx => h1 ⟨p, hp, hx⟩
  rw [List.any_eq_true] at h2
  have h3 : ¬ cidrPrefixed (gp.groupId.getD "") = true := fun hx => h2 ⟨gp, hgp, hx⟩
  rwa [Bool.not_eq_true] at h3

/-! ## Claim C1 — cross-boundary classification -/

/-- Counterexample to claim C1 as stated: in `recCollide` a group reference
re-uses the address-block key `"CIDR: foo"` created by an earlier CIDR rule
and overwrites the edge's attributes, so the final graph has an edge leaving
an address-block node (`ntype = "cidr"`) with `is_cross_vpc = True`. -/
theorem C1_counterexample :
    (((build_graph [] VisualizerState.init [recCollide] none).graph.node? "CIDR: foo").map
        (fun a => a.ntype)) = some (some "cidr")
    ∧ (((build_graph [] VisualizerState.init [recCollide] none).graph.edge? "CIDR: foo" "sg-A").map
        (fun a => a.is_cross_vpc)) = some (some true) := by
  constructor <;> decide

/-- Claim C1 (amended): an edge constructed from a group reference carries
`isCrossBoundary = True` exactly when the reference's container id differs
from the declaring record's container id and is not `"Unknown VPC"`; a
reference defaulting to `"Unknown VPC"` is never cross-boundary; an edge
constructed from an address range always carries `isCrossBoundary = False`;
and in the final graph every edge leaving an address-block node carries
`isCrossBoundary = False`, PROVIDED no group reference's id collides with the
address-block key space `"CIDR: …"` (an overwrite through such a collision is
the one exception, exhibited by the counterexample). -/
theorem C1_cross_boundary :
    (∀ (prot : String) (f t : Int) (sourceVpc vpcId : String),
        ((sgEdgeAttrs prot f t sourceVpc vpcId).is_cross_vpc = some true
          ↔ (sourceVpc ≠ vpcId ∧ sourceVpc ≠ "Unknown VPC")))
    ∧ (∀ (prot : String) (f t : Int) (vpcId : String),
        (sgEdgeAttrs prot f t "Unknown VPC" vpcId).is_cross_vpc = some false)
    ∧ (∀ (prot : String) (f t : Int), (cidrEdgeAttrs prot f t).is_cross_vpc = some false)
    ∧ (∀ cfg sgs hl, hasCidrRefId sgs = false →
        ∀ e ∈ (build_graph cfg VisualizerState.init sgs hl).graph.edges,
        ∀ a, (build_graph cfg VisualizerState.init sgs hl).graph.node? e.1 = some a →
          a.ntype = some "cidr" → e.2.2.is_cross_vpc = some false) := by
  refine ⟨fun prot f t sourceVpc vpcId => ?_, fun prot f t vpcId => by simp [sgEdgeAttrs],
    fun prot f t => rfl, ?_⟩
  · simp [sgEdgeAttrs]
  · intro cfg sgs hl hno e he a hna hcid
    have hb : (build_graph cfg VisualizerState.init sgs hl).graph
        = sgs.foldl (processRecord cfg hl) Graph.empty := rfl
    rw [hb] at he hna
    have hsafe : cidrEdgesSafe (sgs.foldl (processRecord cfg hl) Graph.empty) := by
      apply foldl_preserves_mem cidrEdgesSafe _ _
        (fun b hb2 a0 ha0 => safe_processRecord _ _ ha0 b (hasCidrRefId_eq_false hno b hb2))
      constructor
      · intro e0 he0
        simp [Graph.empty] at he0
      · intro p hp
        simp [Graph.empty] at hp
    exact hsafe.1 e he (hsafe.2 (e.1, a) (node?_mem hna) hcid)

/-- Witness for C1 at concrete values and a concrete collision-free build. -/
theorem C1_cross_boundary_witness :
    ((sgEdgeAttrs "tcp" 443 443 "vpc-2" "vpc-1").is_cross_vpc = some true
      ↔ ("vpc-2" ≠ "vpc-1" ∧ "vpc-2" ≠ "Unknown VPC"))
    ∧ hasCidrRefId [recA] = false
    ∧ (∀ e ∈ (build_graph cfgEx VisualizerState.init [recA] none).graph.edges,
        ∀ a, (build_graph cfgEx VisualizerState.init [recA] none).graph.node? e.1 = some a →
          a.ntype = some "cidr" → e.2.2.is_cross_vpc = some false) :=
  ⟨C1_cross_boundary.1 "tcp" 443 443 "vpc-2" "vpc-1",
   by decide,
   C1_cross_boundary.2.2.2 cfgEx [recA] none (by decide)⟩

/-! ## Protocol display (claim C5) -/

/-- A graph-or-added-node still has the original edge list. -/
theorem edges_if_addNode (g : Graph) (b : Bool) (k : String) (a : NodeAttrs) :
    (if b = true then g else g.addNode k a).edges = g.edges := by
  split
  · rfl
  · exact addNode_edges g k a

/-- An edge predicate survives `addEdge` when it holds of the old edges, of
any in-place update with the new attributes, and of the fresh edge. -/
theorem edges_inv_addEdge (Q : String × String × EdgeAttrs → Prop) {g : Graph}
    (u v : String) (a : EdgeAttrs)
    (hg : ∀ e ∈ g.edges, Q e)
    (hupd : ∀ o : EdgeAttrs, Q (u, v, o.update a))
    (hnew : Q (u, v, a)) :
    ∀ e ∈ (g.addEdge u v a).edges, Q e := by
  have hbase : ∀ e ∈ ((g.ensureNode u).ensureNode v).edges, Q e := by
    intro e he
    rw [ensureNode_edges, ensureNode_edges] at he
    exact hg e he
  simp only [Graph.addEdge]
  split
  · intro e he
    rcases List.mem_map.mp he with ⟨e0, he0, hee⟩
    subst hee
    unfold updEdge
    split
    · next hcond =>
      rw [Bool.and_eq_true] at hcond
      have h1 : e0.1 = u := by simpa using hcond.1
      have h2 : e0.2.1 = v := by simpa using hcond.2
      rw [h1, h2]
      exact hupd e0.2.2
    · exact hbase e0 he0
  · intro e he
    rcases List.mem_append.mp he with he | he
    · exact hbase e he
    · rw [List.mem_singleton] at he
      subst he
      exact hnew

/-- Every edge the Matplotlib/Plotly group-pair step writes carries the
protocol string it was given. -/
theorem protocol_inv_mplProcessGroupPair (hl : Option String)
    (prot portInfo direction tgt vpc : String)
    (Q : String × String × EdgeAttrs → Prop)
    (hAll : ∀ e, e.2.2.protocol = some prot → Q e)
    {g0 : Graph} (hg0 : ∀ e ∈ g0.edges, Q e) (gp : GroupPair) :
    ∀ e ∈ (mplProcessGroupPair hl prot portInfo direction tgt vpc g0 gp).edges, Q e := by
  simp only [mplProcessGroupPair]
  split
  · apply edges_inv_addEdge
    · intro e he
      rw [edges_if_addNode] at he
      exact hg0 e he
    · intro o
      apply hAll
      simp [EdgeAttrs.update, mplSgEdgeAttrs, oUpd]
    · apply hAll
      rfl
  · exact hg0

/-- Every edge the Matplotlib/Plotly address-range step writes carries the
protocol string it was given. -/
theorem protocol_inv_mplProcessIpRange (cfg : List (String × String))
    (prot portInfo direction tgt : String)
    (Q : String × String × EdgeAttrs → Prop)
    (hAll : ∀ e, e.2.2.protocol = some prot → Q e)
    {g0 : Graph} (hg0 : ∀ e ∈ g0.edges, Q e) (r : IpRange) :
    ∀ e ∈ (mplProcessIpRange cfg prot portInfo direction tgt g0 r).edges, Q e := by
  simp only [mplProcessIpRange]
  split
  · apply edges_inv_addEdge
    · intro e he
      rw [edges_if_addNode] at he
      exact hg0 e he
    · intro o
      apply hAll
      simp [EdgeAttrs.update, mplCidrEdgeAttrs, oUpd]
    · apply hAll
      rfl
  · exact hg0

/-- Every edge the base-visualizer group-pair step writes carries the label
built from the protocol string it was given. -/
theorem label_inv_processGroupPair (hl : Option String) (prot : String) (f t : Int)
    (tgt vpc : String)
    (Q : String × String × EdgeAttrs → Prop)
    (hL : ∀ e, e.2.2.label = some (prot ++ ":" ++ format_ports f t) → Q e)
    {g0 : Graph} (hg0 : ∀ e ∈ g0.edges, Q e) (gp : GroupPair) :
    ∀ e ∈ (processGroupPair hl prot f t tgt vpc g0 gp).edges, Q e := by
  simp only [processGroupPair]
  split
  · apply edges_inv_addEdge
    · intro e he
      rw [edges_if_addNode] at he
      exact hg0 e he
    · intro o
      apply hL
      simp [EdgeAttrs.update, sgEdgeAttrs, oUpd]
    · apply hL
      rfl
  · exact hg0

/-- Every edge the base-visualizer address-range step writes carries the label
built from the protocol string it was given. -/
theorem label_inv_processIpRange (cfg : List (String × String)) (prot : String)
    (f t : Int) (tgt : String)
    (Q : String × String × EdgeAttrs → Prop)
    (hL : ∀ e, e.2.2.label = some (prot ++ ":" ++ format_ports f t) → Q e)
    {g0 : Graph} (hg0 : ∀ e ∈ g0.edges, Q e) (r : IpRange) :
    ∀ e ∈ (processIpRange cfg prot f t tgt g0 r).edges, Q e := by
  simp only [processIpRange]
  split
  · apply edges_inv_addEdge
    · intro e he
      rw [addNode_edges] at he
      exact hg0 e he
    · intro o
      apply hL
      simp [EdgeAttrs.update, cidrEdgeAttrs, oUpd]
    · apply hL
      rfl
  · exact hg0

/-! ## Claim C5 — protocol "-1" display -/

/-- Counterexample to claim C5 as stated: at a permission with protocol
`"-1"` (port 443, same-container reference), the Matplotlib/Plotly builder
stores the edge with `protocol = "All"` and NO field retaining the raw
`"-1"` (the full attribute dictionary is listed), while the base builder's
human-facing edge label is `"-1:443"`, not `"All:443"` — so "display All and
retain the raw value in a matching field" fails in both directions. -/
theorem C5_counterexample :
    ((mplBuildGraph cfgEx VisualizerState.init [recProtoAll] none).graph.edge? "sg-B" "sg-A"
        = some { protocol := some "All", ports := some "443", direction := some "INGRESS",
                 is_cross_vpc := some false, label := none })
    ∧ (some "All" : Option String) ≠ some "-1"
    ∧ (some "443" : Option String) ≠ some "-1"
    ∧ (some "INGRESS" : Option String) ≠ some "-1"
    ∧ (none : Option String) ≠ some "-1"
    ∧ ((build_graph cfgEx VisualizerState.init [recProtoAll] none).graph.edge? "sg-B" "sg-A").map
          (fun a => a.label) = some (some "-1:443")
    ∧ (some "-1:443" : Option String) ≠ some "All:443" := by
  refine ⟨by decide, by decide, by decide, by decide, by decide, by decide, by decide⟩

/-- Claim C5 (amended): the Matplotlib/Plotly builders map protocol `"-1"` to
the display string `"All"` before storing it, so every edge such a permission
writes has `protocol = "All"` (the raw `"-1"` is not retained in any edge
field); the base builder does not apply the mapping and bakes the raw
protocol into its human-facing `label`. -/
theorem C5_protocol_display :
    mplDisplayProtocol "-1" = "All"
    ∧ (∀ p, p ≠ "-1" → mplDisplayProtocol p = p)
    ∧ (∀ prot portInfo direction sourceVpc vpcId,
        (mplSgEdgeAttrs prot portInfo direction sourceVpc vpcId).protocol = some prot)
    ∧ (∀ cfg hl direction tgt vpc g p, p.ipProtocol = some "-1" →
        ∀ e ∈ (mplProcessPermission cfg hl direction tgt vpc g p).edges, e ∉ g.edges →
          e.2.2.protocol = some "All")
    ∧ (∀ cfg hl tgt vpc g p, p.ipProtocol = some "-1" →
        ∀ e ∈ (processPermission cfg hl tgt vpc g p).edges, e ∉ g.edges →
          e.2.2.label
            = some ("-1:" ++ format_ports (p.fromPort.getD (-1)) (p.toPort.getD (-1)))) := by
  refine ⟨rfl, fun p hp => by simp [mplDisplayProtocol, hp],
    fun prot portInfo direction sourceVpc vpcId => rfl, ?_, ?_⟩
  · intro cfg hl direction tgt vpc g p hp
    have hbase : ∀ e ∈ g.edges, e ∈ g.edges ∨ e.2.2.protocol = some "All" :=
      fun e he => Or.inl he
    have h1 := foldl_preserves
      (fun g0 => ∀ e ∈ g0.edges, e ∈ g.edges ∨ e.2.2.protocol = some "All")
      (mplProcessGroupPair hl "All"
        (format_ports (p.fromPort.getD (-1)) (p.toPort.getD (-1))) direction tgt vpc)
      (fun a b ha => protocol_inv_mplProcessGroupPair hl "All"
        (format_ports (p.fromPort.getD (-1)) (p.toPort.getD (-1))) direction tgt vpc
        (fun e => e ∈ g.edges ∨ e.2.2.protocol = some "All")
        (fun e hq => Or.inr hq) ha b)
      (p.userIdGroupPairs.getD []) g hbase
    have h2 := foldl_preserves
      (fun g0 => ∀ e ∈ g0.edges, e ∈ g.edges ∨ e.2.2.protocol = some "All")
      (mplProcessIpRange cfg "All"
        (format_ports (p.fromPort.getD (-1)) (p.toPort.getD (-1))) direction tgt)
      (fun a b ha => protocol_inv_mplProcessIpRange cfg "All"
        (format_ports (p.fromPort.getD (-1)) (p.toPort.getD (-1))) direction tgt
        (fun e => e ∈ g.edges ∨ e.2.2.protocol = some "All")
        (fun e hq => Or.inr hq) ha b)
      (p.ipRanges.getD []) _ h1
    have hinv : ∀ e ∈ (mplProcessPermission cfg hl direction tgt vpc g p).edges,
        e ∈ g.edges ∨ e.2.2.protocol = some "All" := by
      simp only [mplProcessPermission, hp, Option.getD_some]
      rw [show mplDisplayProtocol "-1" = "All" from rfl]
      exact h2
    intro e he hnot
    rcases hinv e he with hold | hq
    · exact absurd hold hnot
    · exact hq
  · intro cfg hl tgt vpc g p hp
    have hbase : ∀ e ∈ g.edges, e ∈ g.edges
        ∨ e.2.2.label = some ("-1:" ++ format_ports (p.fromPort.getD (-1)) (p.toPort.getD (-1))) :=
      fun e he => Or.inl he
    have h1 := foldl_preserves
      (fun g0 => ∀ e ∈ g0.edges, e ∈ g.edges
        ∨ e.2.2.label = some ("-1:" ++ format_ports (p.fromPort.getD (-1)) (p.toPort.getD (-1))))
      (processGroupPair hl "-1" (p.fromPort.getD (-1)) (p.toPort.getD (-1)) tgt vpc)
      (fun a b ha => label_inv_processGroupPair hl "-1"
        (p.fromPort.getD (-1)) (p.toPort.getD (-1)) tgt vpc
        (fun e => e ∈ g.edges
          ∨ e.2.2.label = some ("-1:" ++ format_ports (p.fromPort.getD (-1)) (p.toPort.getD (-1))))
        (fun e hq => Or.inr hq) ha b)
      (p.userIdGroupPairs.getD []) g hbase
    have h2 := foldl_preserves
      (fun g0 => ∀ e ∈ g0.edges, e ∈ g.edges
        ∨ e.2.2.label = some ("-1:" ++ format_ports (p.fromPort.getD (-1)) (p.toPort.getD (-1))))
      (processIpRange cfg "-1" (p.fromPort.getD (-1)) (p.toPort.getD (-1)) tgt)
      (fun a b ha => label_inv_processIpRange cfg "-1"
        (p.fromPort.getD (-1)) (p.toPort.getD (-1)) tgt
        (fun e => e ∈ g.edges
          ∨ e.2.2.label = some ("-1:" ++ format_ports (p.fromPort.getD (-1)) (p.toPort.getD (-1))))
        (fun e hq => Or.inr hq) ha b)
      (p.ipRanges.getD []) _ h1
    have hinv : ∀ e ∈ (processPermission cfg hl tgt vpc g p).edges,
        e ∈ g.edges
          ∨ e.2.2.label
              = some ("-1:" ++ format_ports (p.fromPort.getD (-1)) (p.toPort.getD (-1))) := by
      simp only [processPermission, hp, Option.getD_some]
      exact h2
    intro e he hnot
    rcases hinv e he with hold | hq
    · exact absurd hold hnot
    · exact hq

/-- Witness for C5 at a concrete protocol and a concrete permission. -/
theorem C5_protocol_display_witness :
    "tcp" ≠ "-1" ∧ mplDisplayProtocol "tcp" = "tcp"
    ∧ permC5.ipProtocol = some "-1"
    ∧ (∀ e ∈ (mplProcessPermission cfgEx none "INGRESS" "sg-A" "vpc-1" Graph.empty permC5).edges,
        e ∉ Graph.empty.edges → e.2.2.protocol = some "All")
    ∧ (∀ e ∈ (processPermission cfgEx none "sg-A" "vpc-1" Graph.empty permC5).edges,
        e ∉ Graph.empty.edges →
          e.2.2.label
            = some ("-1:" ++ format_ports (permC5.fromPort.getD (-1)) (permC5.toPort.getD (-1)))) :=
  ⟨by decide, C5_protocol_display.2.1 "tcp" (by decide), rfl,
   C5_protocol_display.2.2.2.1 cfgEx none "INGRESS" "sg-A" "vpc-1" Graph.empty permC5 rfl,
   C5_protocol_display.2.2.2.2 cfgEx none "sg-A" "vpc-1" Graph.empty permC5 rfl⟩

end AwsSecurityMapper
